import Mathlib

/-!
Verification development for the token-metering, payment and report-parsing
logic of the cognitive-profiler web application.

The TypeScript sources are embedded shallowly:

* JS numbers used as token amounts are modelled as `ℚ` where `Math.ceil`
  is applied to them, and as `ℤ` where the source only ever handles
  integers; `Math.ceil` is `mathCeil`.
* The persistence gateway (`server/storage.ts`) is modelled as a record of
  pure state-passing operations (`StorageModel`), instantiated once for the
  database-backed `NeonStorage` (`dbStorage` over `DbState`, association
  lists standing for tables) and once for the in-memory fallback
  `MemStorage` (`memStorage` over `MemState`), mirroring which operations
  each implementation actually persists.
* `async` functions become pure functions threading the storage state;
  a `throw` becomes an `Option` result (`none` = exception).
* JS strings are Lean `String`s; where the long-form report parser
  manipulates text character by character it is modelled over `List Char`
  (`String.data`), with `trimChars` standing for `String.prototype.trim`
  and hand-rolled matchers standing for the literal regexes of the source.
  Timestamps and network metadata are not modelled.
-/

/-- mathCeil models JS `Math.ceil` on a rational number.  It is definitionally
`-Rat.floor (-q)`, which `mathCeil_eq_ceil` identifies with `Int.ceil`. -/
def mathCeil (q : ℚ) : ℤ := -((-q).floor)

/-- lowerStr models JS `String.prototype.toLowerCase` (character-wise, which
is exact on the ASCII strings compared by the admin allow-list check). -/
def lowerStr (s : String) : String := String.mk (s.data.map Char.toLower)

/-- alookup models a SQL `SELECT ... WHERE key = ?` over an association list
(first match wins, as for a unique key). -/
def alookup {α : Type} : List (String × α) → String → Option α
  | [], _ => none
  | (k, v) :: t, key => if k = key then some v else alookup t key

/-- aupdate models a SQL `UPDATE ... WHERE key = ?`: every row whose key
matches is rewritten by `f`; rows are neither added nor removed. -/
def aupdate {α : Type} (l : List (String × α)) (key : String) (f : α → α) :
    List (String × α) :=
  l.map (fun p => if p.1 = key then (p.1, f p.2) else p)

/-- parseIntJs models JS `parseInt` on the clean numeric strings stored in
payment metadata: an optional sign followed by decimal digits; `none` stands
for `NaN` (no digits at all).  Trailing garbage after the digits is ignored,
as `parseInt` does. -/
def parseIntJs (s : String) : Option ℤ :=
  let core : List Char → Option ℤ := fun cs =>
    let ds := cs.takeWhile Char.isDigit
    if ds.isEmpty then none
    else some (ds.foldl (fun n c => n * 10 + (c.toNat - 48 : ℤ)) 0)
  match s.data with
  | '-' :: rest => (core rest).map (fun n => -n)
  | '+' :: rest => core rest
  | l => core l

/-! ## Data model (shared/schema.ts, restricted to the fields the claims use) -/

/-- User row: email, integer token balance.  (Credential hash, registration
flag and timestamps are not used by any claim.) -/
structure UserRow where
  email : String
  token_balance : ℤ
deriving DecidableEq

/-- AnonymousSession row: cumulative tokens consumed.  (Timestamps and
network metadata are not modelled.) -/
structure SessionRow where
  tokens_used : ℤ
deriving DecidableEq

/-- TokenUsageRow: one append-only ledger entry, as inserted by
`storage.createTokenUsage` (anthropic-variant token service fields). -/
structure TokenUsageRow where
  user_id : Option String
  session_id : Option String
  event_type : String
  tokens_used : ℤ
  tokens_remaining : ℤ
  description : String
deriving DecidableEq

/-- PaymentRow: one row per charge attempt, keyed by the Stripe payment
intent id. -/
structure PaymentRow where
  user_id : String
  stripe_payment_intent_id : String
  amount_cents : ℤ
  tokens_purchased : ℤ
  status : String
deriving DecidableEq

/-- DbState: the relational store backing `NeonStorage`, one association
list / list per table the claims touch. -/
structure DbState where
  users : List (String × UserRow)
  sessions : List (String × SessionRow)
  ledger : List TokenUsageRow
  payments : List PaymentRow
deriving DecidableEq

/-- MemState: the in-memory fallback `MemStorage`.  Its constructor builds
maps only for users, documents, analysis requests and reports; anonymous
sessions, token usage and payments are NOT persisted (storage.ts 329-388),
so only the users map appears here. -/
structure MemState where
  users : List (String × UserRow)
deriving DecidableEq

/-- StorageModel: the slice of the `IStorage` interface used by the token
service and the payment bridge, as pure state-passing operations. -/
structure StorageModel (σ : Type) where
  getUser : σ → String → Option UserRow
  updateUserTokenBalance : σ → String → ℤ → σ
  getAnonymousSession : σ → String → Option SessionRow
  createAnonymousSession : σ → String → ℤ → σ
  updateAnonymousSessionTokens : σ → String → ℤ → σ
  createTokenUsage : σ → TokenUsageRow → σ
  createPayment : σ → PaymentRow → σ
  updatePaymentStatus : σ → String → String → σ

/-- getUserDb: NeonStorage.getUser — select by id. -/
def getUserDb (st : DbState) (uid : String) : Option UserRow :=
  alookup st.users uid

/-- updateUserTokenBalanceDb: NeonStorage.updateUserTokenBalance — set
`token_balance` where the id matches. -/
def updateUserTokenBalanceDb (st : DbState) (uid : String) (b : ℤ) : DbState :=
  { st with users := aupdate st.users uid (fun u => { u with token_balance := b }) }

/-- getAnonymousSessionDb: NeonStorage.getAnonymousSession — select by
session id. -/
def getAnonymousSessionDb (st : DbState) (sid : String) : Option SessionRow :=
  alookup st.sessions sid

/-- createAnonymousSessionDb: NeonStorage.createAnonymousSession — insert a
new session row. -/
def createAnonymousSessionDb (st : DbState) (sid : String) (tok : ℤ) : DbState :=
  { st with sessions := (sid, { tokens_used := tok }) :: st.sessions }

/-- updateAnonymousSessionTokensDb: NeonStorage.updateAnonymousSessionTokens
— set `tokens_used` where the session id matches.  The source applies
`Math.ceil` to the new total, which is the identity on the integer totals
every caller passes; `last_activity` is a timestamp and is not modelled. -/
def updateAnonymousSessionTokensDb (st : DbState) (sid : String) (tok : ℤ) : DbState :=
  { st with sessions := aupdate st.sessions sid (fun _ => { tokens_used := tok }) }

/-- createTokenUsageDb: NeonStorage.createTokenUsage — append-only insert
into the ledger (newest row first in this model). -/
def createTokenUsageDb (st : DbState) (row : TokenUsageRow) : DbState :=
  { st with ledger := row :: st.ledger }

/-- createPaymentDb: NeonStorage.createPayment — insert a payment row. -/
def createPaymentDb (st : DbState) (row : PaymentRow) : DbState :=
  { st with payments := row :: st.payments }

/-- updatePaymentStatusDb: NeonStorage.updatePaymentStatus — set `status`
where the Stripe payment intent id matches. -/
def updatePaymentStatusDb (st : DbState) (pid : String) (status : String) : DbState :=
  { st with payments :=
      st.payments.map (fun p =>
        if p.stripe_payment_intent_id = pid then { p with status := status } else p) }

/-- dbStorage: the database-backed storage (`NeonStorage`), selected when a
database connection string is configured. -/
def dbStorage : StorageModel DbState where
  getUser := getUserDb
  updateUserTokenBalance := updateUserTokenBalanceDb
  getAnonymousSession := getAnonymousSessionDb
  createAnonymousSession := createAnonymousSessionDb
  updateAnonymousSessionTokens := updateAnonymousSessionTokensDb
  createTokenUsage := createTokenUsageDb
  createPayment := createPaymentDb
  updatePaymentStatus := updatePaymentStatusDb

/-- memStorage: the in-memory fallback (`MemStorage`).  Users are kept in a
map; `getAnonymousSession` always returns absence (storage.ts 370-373),
`createAnonymousSession` returns a fresh object WITHOUT storing it
(storage.ts 375-384), and `updateAnonymousSessionTokens`,
`createTokenUsage`, `createPayment`, `updatePaymentStatus` are no-ops on
the state (storage.ts 330-339, 350-363, 386-388). -/
def memStorage : StorageModel MemState where
  getUser := fun st uid => alookup st.users uid
  updateUserTokenBalance := fun st uid b =>
    { st with users := aupdate st.users uid (fun u => { u with token_balance := b }) }
  getAnonymousSession := fun _ _ => none
  createAnonymousSession := fun st _ _ => st
  updateAnonymousSessionTokens := fun st _ _ => st
  createTokenUsage := fun st _ => st
  createPayment := fun st _ => st
  updatePaymentStatus := fun st _ _ => st

/-- usesMemStorage models the selection on storage.ts line 392: the
in-memory fallback is chosen exactly when `DATABASE_URL` is absent or empty
(JS falsiness of the connection string). -/
def usesMemStorage (databaseUrl : Option String) : Bool :=
  match databaseUrl with
  | none => true
  | some s => s.isEmpty

/-! ## Token accounting engine (the TokenService embedded after anthropic.ts,
the variant with free-tier limits, admin bypass and ledger rows) -/

namespace TokenService

def FREE_TOKEN_LIMIT : ℤ := 1000
def FREE_INPUT_LIMIT : ℤ := 500
def FREE_OUTPUT_LIMIT : ℤ := 300
def UPLOAD_COST_PER_100_WORDS : ℤ := 1
def MIN_UPLOAD_COST : ℤ := 100
def MAX_UPLOAD_COST : ℤ := 10000
def MAX_FREE_UPLOAD_COST : ℤ := 1000

/-- ADMIN_SENTINEL is the hard-coded "unlimited" balance 999999999. -/
def ADMIN_SENTINEL : ℤ := 999999999

/-- adminUsernames is the fixed admin allow-list hard-coded in
`checkRegisteredUserTokens` and `deductRegisteredUserTokens`. -/
def adminUsernames : List String := ["jmkuczynski", "jmkuczynski@yahoo.com"]

/-- isAdminEmail: `adminUsernames.some(admin => admin.toLowerCase() ===
user.email.toLowerCase())`. -/
def isAdminEmail (email : String) : Bool :=
  adminUsernames.any (fun admin => lowerStr admin = lowerStr email)

/-- upgradeMessage is the user-facing message returned on any free-tier
refusal of the per-call caps (built by concatenation to keep the apostrophe
of the source text out of the literal). -/
def upgradeMessage : String :=
  "Full results available with upgrade. [Register & Unlock Full Access]"

/-- limitMessage is the user-facing message returned when the lifetime cap
would be exceeded. -/
def limitMessage : String :=
  "You" ++ String.mk [Char.ofNat 39] ++
    "ve reached the free usage limit. [Register & Unlock Full Access]"

/-- creditsMessage is the message returned to a registered user with an
insufficient balance. -/
def creditsMessage : String :=
  "You" ++ String.mk [Char.ofNat 39] ++ "ve used all your credits. [Buy More Credits]"

/-- CheckFreeResult: the result shape of `checkFreeUserLimits`. -/
structure CheckFreeResult where
  canProceed : Bool
  tokensUsed : ℤ
  message : Option String
deriving DecidableEq

/-- CheckRegResult: the result shape of `checkRegisteredUserTokens`. -/
structure CheckRegResult where
  canProceed : Bool
  currentBalance : ℤ
  message : Option String
deriving DecidableEq

/-- calculateUploadCost (anthropic-variant, tokenService lines 145-148):
`Math.max(Math.ceil(wordCount / 100) * UPLOAD_COST_PER_100_WORDS,
MIN_UPLOAD_COST)`. -/
def calculateUploadCost (wordCount : ℤ) : ℤ :=
  max (mathCeil ((wordCount : ℚ) / 100) * UPLOAD_COST_PER_100_WORDS) MIN_UPLOAD_COST

/-- checkFreeUserLimits (anthropic-variant lines 153-191): reads the
session's cumulative usage (0 when the session row is absent, matching
`session?.tokens_used || 0`), then fails closed on the per-call input cap,
the per-call output cap, and the lifetime cap in that order. -/
def checkFreeUserLimits {σ : Type} (S : StorageModel σ) (st : σ) (sessionId : String)
    (inputTokens outputTokens : ℤ) : CheckFreeResult :=
  let currentUsage := ((S.getAnonymousSession st sessionId).map (·.tokens_used)).getD 0
  if FREE_INPUT_LIMIT < inputTokens then
    { canProceed := false, tokensUsed := currentUsage, message := some upgradeMessage }
  else if FREE_OUTPUT_LIMIT < outputTokens then
    { canProceed := false, tokensUsed := currentUsage, message := some upgradeMessage }
  else if FREE_TOKEN_LIMIT < currentUsage + (inputTokens + outputTokens) then
    { canProceed := false, tokensUsed := currentUsage, message := some limitMessage }
  else
    { canProceed := true, tokensUsed := currentUsage, message := none }

/-- checkRegisteredUserTokens (anthropic-variant lines 196-227): missing
user fails the check; an admin identity is self-healed to the sentinel
balance when observed below it and always proceeds; otherwise the check is
`requiredTokens ≤ balance`.  Returns the possibly-updated store together
with the decision. -/
def checkRegisteredUserTokens {σ : Type} (S : StorageModel σ) (st : σ) (userId : String)
    (requiredTokens : ℤ) : σ × CheckRegResult :=
  match S.getUser st userId with
  | none => (st, { canProceed := false, currentBalance := 0, message := some "User not found" })
  | some user =>
    if isAdminEmail user.email then
      let st' := if user.token_balance < ADMIN_SENTINEL
                 then S.updateUserTokenBalance st userId ADMIN_SENTINEL
                 else st
      (st', { canProceed := true, currentBalance := ADMIN_SENTINEL, message := none })
    else
      let currentBalance := user.token_balance
      if currentBalance < requiredTokens then
        (st, { canProceed := false, currentBalance := currentBalance,
               message := some creditsMessage })
      else
        (st, { canProceed := true, currentBalance := currentBalance, message := none })

/-- deductFreeUserTokens (anthropic-variant lines 232-257): ceil the charged
amount, create the session row on first sight or add to the existing total,
then append a ledger row whose `tokens_remaining` is computed from the
usage observed BEFORE this deduction. -/
def deductFreeUserTokens {σ : Type} (S : StorageModel σ) (st : σ) (sessionId : String)
    (tokensUsed : ℚ) (description : String) : σ :=
  let tokensUsedInt := mathCeil tokensUsed
  let session := S.getAnonymousSession st sessionId
  let st1 :=
    match session with
    | none => S.createAnonymousSession st sessionId tokensUsedInt
    | some s => S.updateAnonymousSessionTokens st sessionId (s.tokens_used + tokensUsedInt)
  S.createTokenUsage st1
    { user_id := none, session_id := some sessionId, event_type := "analysis",
      tokens_used := tokensUsedInt,
      tokens_remaining :=
        FREE_TOKEN_LIMIT - ((session.map (·.tokens_used)).getD 0) - tokensUsedInt,
      description := description }

/-- deductRegisteredUserTokens (anthropic-variant lines 262-297): throws
(`none`) when the user is missing; an admin identity is only logged, never
debited; otherwise the ceiled amount is subtracted from the balance with NO
sufficiency check and a ledger row is appended with the just-updated
balance as `tokens_remaining`. -/
def deductRegisteredUserTokens {σ : Type} (S : StorageModel σ) (st : σ) (userId : String)
    (tokensUsed : ℚ) (eventType description : String) : Option σ :=
  let tokensUsedInt := mathCeil tokensUsed
  match S.getUser st userId with
  | none => none
  | some user =>
    if isAdminEmail user.email then
      some (S.createTokenUsage st
        { user_id := some userId, session_id := none, event_type := eventType,
          tokens_used := tokensUsedInt, tokens_remaining := ADMIN_SENTINEL,
          description := description ++ " (ADMIN - no deduction)" })
    else
      let newBalance := user.token_balance - tokensUsedInt
      let st1 := S.updateUserTokenBalance st userId newBalance
      some (S.createTokenUsage st1
        { user_id := some userId, session_id := none, event_type := eventType,
          tokens_used := tokensUsedInt, tokens_remaining := newBalance,
          description := description })

/-- addTokensToUser (anthropic-variant lines 302-317): throws (`none`) when
the user is missing; otherwise credits the balance and appends a ledger row
with a NEGATIVE `tokens_used` (purchase convention). -/
def addTokensToUser {σ : Type} (S : StorageModel σ) (st : σ) (userId : String)
    (tokensToAdd : ℤ) : Option σ :=
  match S.getUser st userId with
  | none => none
  | some user =>
    let newBalance := user.token_balance + tokensToAdd
    let st1 := S.updateUserTokenBalance st userId newBalance
    some (S.createTokenUsage st1
      { user_id := some userId, session_id := none, event_type := "purchase",
        tokens_used := -tokensToAdd, tokens_remaining := newBalance,
        description := "Purchased " ++ toString tokensToAdd ++ " tokens" })

end TokenService

/-! ## Alternate token service (server/tokenService.ts, the divergent earlier
variant; only the operation a claim cites is embedded) -/

namespace TokenServiceAlt

def FREE_TOKEN_LIMIT : ℤ := 1000

/-- AltCheckResult: the result shape of the alternate
`checkAnonymousUserTokens`. -/
structure AltCheckResult where
  canProceed : Bool
  tokensUsed : ℤ
  remainingTokens : ℤ
deriving DecidableEq

/-- checkAnonymousUserTokens (tokenService.ts lines 31-45): treats a missing
session as usage 0 and returns `remainingTokens ≥ requiredTokens` as a
plain decision. -/
def checkAnonymousUserTokens {σ : Type} (S : StorageModel σ) (st : σ) (sessionId : String)
    (requiredTokens : ℤ) : AltCheckResult :=
  let tokensUsed := ((S.getAnonymousSession st sessionId).map (·.tokens_used)).getD 0
  let remainingTokens := FREE_TOKEN_LIMIT - tokensUsed
  { canProceed := requiredTokens ≤ remainingTokens,
    tokensUsed := tokensUsed, remainingTokens := remainingTokens }

end TokenServiceAlt

/-! ## Payment bridge (StripeService, src/unnamed/part_000) -/

/-- StripeIntent: the processor-side representation of a charge, with the
metadata this system attaches (`userId`, `tokens` as a string). -/
structure StripeIntent where
  id : String
  status : String
  metadata_userId : String
  metadata_tokens : String
deriving DecidableEq

namespace StripeService

/-- createPaymentIntent (part_000 lines 19-42): asks the processor for an
intent (the processor-chosen fresh id is a parameter of the model) carrying
`{userId, tokens.toString()}` as metadata, and persists a local PaymentRow
in status "pending" keyed by that intent id.  Returns the new store and the
created intent. -/
def createPaymentIntent {σ : Type} (S : StorageModel σ) (st : σ)
    (amount tokens : ℤ) (userId freshId : String) : σ × StripeIntent :=
  (S.createPayment st
    { user_id := userId, stripe_payment_intent_id := freshId,
      amount_cents := amount, tokens_purchased := tokens, status := "pending" },
   { id := freshId, status := "requires_payment_method",
     metadata_userId := userId, metadata_tokens := toString tokens })

/-- handleSuccessfulPayment (part_000 lines 47-68): re-fetches the intent
from the processor (`env` is the processor's intent table; a missing intent
makes the retrieve throw, which the catch turns into status "failed").  If
the processor reports "succeeded" and the metadata yields a non-empty user
and a positive token count, the user is credited via
`TokenService.addTokensToUser` and the local row is flipped to "succeeded";
an exception while crediting (missing user) flips it to "failed"; in every
other case nothing is written. -/
def handleSuccessfulPayment {σ : Type} (S : StorageModel σ)
    (env : List (String × StripeIntent)) (st : σ) (paymentIntentId : String) : σ :=
  match alookup env paymentIntentId with
  | none => S.updatePaymentStatus st paymentIntentId "failed"
  | some intent =>
    if intent.status = "succeeded" then
      let userId := intent.metadata_userId
      let tokensStr := if intent.metadata_tokens = "" then "0" else intent.metadata_tokens
      match parseIntJs tokensStr with
      | none => st
      | some tokens =>
        if userId ≠ "" ∧ 0 < tokens then
          match TokenService.addTokensToUser S st userId tokens with
          | some st1 => S.updatePaymentStatus st1 paymentIntentId "succeeded"
          | none => S.updatePaymentStatus st paymentIntentId "failed"
        else st
    else st

/-- handleFailedPayment (part_000 lines 73-75): flips the row to "failed". -/
def handleFailedPayment {σ : Type} (S : StorageModel σ) (st : σ)
    (paymentIntentId : String) : σ :=
  S.updatePaymentStatus st paymentIntentId "failed"

end StripeService

/-! ## Derived observations and operation sequences used by the claims -/

/-- balanceOfDb reads the stored token balance of a user (0 when absent). -/
def balanceOfDb (st : DbState) (uid : String) : ℤ :=
  ((getUserDb st uid).map (·.token_balance)).getD 0

/-- usageOfDb reads the recorded cumulative usage of an anonymous session
(0 when absent), the quantity `checkFreeUserLimits` decides on. -/
def usageOfDb (st : DbState) (sid : String) : ℤ :=
  ((getAnonymousSessionDb st sid).map (·.tokens_used)).getD 0

/-- findPayment looks a payment row up by its Stripe intent id. -/
def findPayment : List PaymentRow → String → Option PaymentRow
  | [], _ => none
  | p :: t, pid => if p.stripe_payment_intent_id = pid then some p else findPayment t pid

/-- RegOp: one ledger-relevant operation on a registered user — a debit via
`deductRegisteredUserTokens` or a purchase credit via `addTokensToUser`. -/
inductive RegOp where
  | deduct (amt : ℚ) (eventType description : String)
  | credit (amt : ℤ)

/-- applyRegOp runs one registered-user operation against the database
storage. -/
def applyRegOp (st : DbState) (uid : String) : RegOp → Option DbState
  | .deduct amt ev d => TokenService.deductRegisteredUserTokens dbStorage st uid amt ev d
  | .credit amt => TokenService.addTokensToUser dbStorage st uid amt

/-- applyRegOps runs a sequence of registered-user operations, aborting on
the first thrown exception. -/
def applyRegOps (st : DbState) (uid : String) : List RegOp → Option DbState
  | [] => some st
  | op :: rest => (applyRegOp st uid op).bind (fun st1 => applyRegOps st1 uid rest)

/-- regDelta is the `tokens_used` ledger delta an operation records: debits
positive (ceiled), purchase credits negative. -/
def regDelta : RegOp → ℤ
  | .deduct amt _ _ => mathCeil amt
  | .credit amt => -amt

/-- applySessionOps runs a sequence of free-session debits
(`deductFreeUserTokens`) against the database storage. -/
def applySessionOps (st : DbState) (sid : String) : List (ℚ × String) → DbState
  | [] => st
  | op :: rest =>
      applySessionOps (TokenService.deductFreeUserTokens dbStorage st sid op.1 op.2) sid rest

/-- applyFreeOpsMem runs a sequence of free-session debits against the
in-memory fallback storage. -/
def applyFreeOpsMem (st : MemState) : List (String × ℚ × String) → MemState
  | [] => st
  | op :: rest =>
      applyFreeOpsMem (TokenService.deductFreeUserTokens memStorage st op.1 op.2.1 op.2.2) rest

/-- freeRow is the ledger row `deductFreeUserTokens` appends for a session
debit (its `tokens_remaining` is computed from the usage observed before
the deduction). -/
def freeRow (st : DbState) (sid : String) (amt : ℚ) (d : String) : TokenUsageRow :=
  { user_id := none, session_id := some sid, event_type := "analysis",
    tokens_used := mathCeil amt,
    tokens_remaining := TokenService.FREE_TOKEN_LIMIT - usageOfDb st sid - mathCeil amt,
    description := d }

/-- regRow is the ledger row `deductRegisteredUserTokens` appends for a
non-admin debit. -/
def regRow (u : UserRow) (uid : String) (amt : ℚ) (ev d : String) : TokenUsageRow :=
  { user_id := some uid, session_id := none, event_type := ev,
    tokens_used := mathCeil amt, tokens_remaining := u.token_balance - mathCeil amt,
    description := d }

/-- creditRow is the ledger row `addTokensToUser` appends for a purchase
credit (negative `tokens_used`). -/
def creditRow (u : UserRow) (uid : String) (amt : ℤ) : TokenUsageRow :=
  { user_id := some uid, session_id := none, event_type := "purchase",
    tokens_used := -amt, tokens_remaining := u.token_balance + amt,
    description := "Purchased " ++ toString amt ++ " tokens" }

/-! ## Long-form report parser (server/ai/deepseek.ts, `parseReportResponse`)

The parser is modelled over `List Char` (JS strings seen as their character
lists): `trimChars` stands for `String.prototype.trim`, `splitOnNl` for
`content.split('\n')`, `parseQuestionLine` for the numbered-marker regex and
`headingTest1` … `headingTest10` for the ten keyword-heading regexes, each
transcribed token by token (`\s*` separators, case-insensitive literals,
with `^` anchoring exactly the alternatives it anchors in the source). -/

/-- isWs is the whitespace class of `\s` / `trim` (space, tab, CR, LF). -/
def isWs (c : Char) : Bool := c.isWhitespace

/-- trimChars models `String.prototype.trim`: drop leading then trailing
whitespace. -/
def trimChars (l : List Char) : List Char :=
  ((l.dropWhile isWs).reverse.dropWhile isWs).reverse

/-- splitOnNl models `content.split('\n')`. -/
def splitOnNl : List Char → List (List Char)
  | [] => [[]]
  | c :: rest =>
    match splitOnNl rest with
    | [] => [[]]
    | line :: lines => if c = '\n' then [] :: line :: lines else (c :: line) :: lines

/-- digitsToNat models `parseInt` on the digit run captured by `(\d+)`. -/
def digitsToNat (ds : List Char) : Nat :=
  ds.foldl (fun n c => n * 10 + (c.toNat - 48)) 0

/-- stripLitCI consumes a literal case-insensitively, returning the rest of
the line. -/
def stripLitCI : List Char → List Char → Option (List Char)
  | [], l => some l
  | _ :: _, [] => none
  | p :: ps, c :: cs => if p.toLower = c.toLower then stripLitCI ps cs else none

/-- parseNumberedAt matches `(\d+)[.:]\s*(.*)` at the current position:
a maximal digit run, a dot or colon, skipped whitespace, and the captured
remainder. -/
def parseNumberedAt (l : List Char) : Option (Nat × List Char) :=
  let ds := l.takeWhile Char.isDigit
  let rest := l.dropWhile Char.isDigit
  if ds.isEmpty then none
  else
    match rest with
    | c :: rest2 =>
      if c = '.' ∨ c = ':' then some (digitsToNat ds, rest2.dropWhile isWs) else none
    | [] => none

/-- parseQuestionLine models the anchored case-insensitive regex
`^(?:Question\s*)?(\d+)[.:]\s*(.*)$` on a whole newline-free line: an
optional "Question" prefix (with backtracking to the prefix-less
alternative when the numbered part fails after it), then number, separator
and captured remainder. -/
def parseQuestionLine (l : List Char) : Option (Nat × List Char) :=
  match stripLitCI "question".data l with
  | some r =>
    match parseNumberedAt (r.dropWhile isWs) with
    | some x => some x
    | none => parseNumberedAt l
  | none => parseNumberedAt l

/-- HTok is one token of a heading regex: a case-insensitive literal or a
`\s*` separator. -/
inductive HTok where
  | lit (s : List Char)
  | ws

/-- matchToksAt matches a token sequence at the start of the line (a prefix
match, which is what an anchored alternative under `.test` needs). -/
def matchToksAt : List HTok → List Char → Bool
  | [], _ => true
  | HTok.ws :: ts, l => matchToksAt ts (l.dropWhile isWs)
  | HTok.lit s :: ts, l =>
    match stripLitCI s l with
    | some r => matchToksAt ts r
    | none => false

/-- matchToksIn searches every position of the line for a match (an
UNanchored regex alternative under `.test`). -/
def matchToksIn (ts : List HTok) : List Char → Bool
  | [] => matchToksAt ts []
  | c :: rest => matchToksAt ts (c :: rest) || matchToksIn ts rest

/-- apos is the apostrophe character of the `author's` heading pattern. -/
def apos : Char := Char.ofNat 39

/-- headingTest1 models `/^intelligence\s*level|author's\s*intelligence/i`;
the `^` anchors only the first alternative. -/
def headingTest1 (l : List Char) : Bool :=
  matchToksAt [.lit "intelligence".data, .ws, .lit "level".data] l ||
  matchToksIn [.lit ("author".data ++ [apos] ++ "s".data), .ws, .lit "intelligence".data] l

/-- headingTest2 models `/^abstract\s*thinking|conceptually\s*integrated/i`. -/
def headingTest2 (l : List Char) : Bool :=
  matchToksAt [.lit "abstract".data, .ws, .lit "thinking".data] l ||
  matchToksIn [.lit "conceptually".data, .ws, .lit "integrated".data] l

/-- headingTest3 models `/^originality|original\s*insight/i`. -/
def headingTest3 (l : List Char) : Bool :=
  matchToksAt [.lit "originality".data] l ||
  matchToksIn [.lit "original".data, .ws, .lit "insight".data] l

/-- headingTest4 models `/^reasoning\s*style|what\s*kind\s*of\s*reasoning/i`. -/
def headingTest4 (l : List Char) : Bool :=
  matchToksAt [.lit "reasoning".data, .ws, .lit "style".data] l ||
  matchToksIn [.lit "what".data, .ws, .lit "kind".data, .ws, .lit "of".data, .ws,
    .lit "reasoning".data] l

/-- headingTest5 models
`/^ambiguity|multiple\s*perspectives|conceptual\s*ambiguity/i`. -/
def headingTest5 (l : List Char) : Bool :=
  matchToksAt [.lit "ambiguity".data] l ||
  matchToksIn [.lit "multiple".data, .ws, .lit "perspectives".data] l ||
  matchToksIn [.lit "conceptual".data, .ws, .lit "ambiguity".data] l

/-- headingTest6 models `/^metacognitive|metacognition/i`. -/
def headingTest6 (l : List Char) : Bool :=
  matchToksAt [.lit "metacognitive".data] l ||
  matchToksIn [.lit "metacognition".data] l

/-- headingTest7 models `/^thinking\s*type|systematizer|synthesizer/i`. -/
def headingTest7 (l : List Char) : Bool :=
  matchToksAt [.lit "thinking".data, .ws, .lit "type".data] l ||
  matchToksIn [.lit "systematizer".data] l ||
  matchToksIn [.lit "synthesizer".data] l

/-- headingTest8 models
`/^cognitive\s*complexity|indicators\s*of\s*cognitive/i`. -/
def headingTest8 (l : List Char) : Bool :=
  matchToksAt [.lit "cognitive".data, .ws, .lit "complexity".data] l ||
  matchToksIn [.lit "indicators".data, .ws, .lit "of".data, .ws, .lit "cognitive".data] l

/-- headingTest9 models
`/^thinking\s*quality|disciplined\s*or\s*meandering|coherent\s*or\s*fragmented/i`. -/
def headingTest9 (l : List Char) : Bool :=
  matchToksAt [.lit "thinking".data, .ws, .lit "quality".data] l ||
  matchToksIn [.lit "disciplined".data, .ws, .lit "or".data, .ws, .lit "meandering".data] l ||
  matchToksIn [.lit "coherent".data, .ws, .lit "or".data, .ws, .lit "fragmented".data] l

/-- headingTest10 models `/^cognitive\s*archetype|archetype/i` — note the
second alternative fires on ANY line containing "archetype". -/
def headingTest10 (l : List Char) : Bool :=
  matchToksAt [.lit "cognitive".data, .ws, .lit "archetype".data] l ||
  matchToksIn [.lit "archetype".data] l

/-- ComprehensiveReport: the ten-field long-form report shape of
deepseek.ts, fields as character lists. -/
structure ComprehensiveReport where
  intelligence : List Char
  abstractThinking : List Char
  originality : List Char
  reasoningStyle : List Char
  ambiguityHandling : List Char
  metacognition : List Char
  thinkingType : List Char
  cognitiveComplexity : List Char
  thinkingQuality : List Char
  cognitiveArchetype : List Char
  generatedBy : String
deriving DecidableEq

/-- defaultReport is the pre-seeded report `parseReportResponse` starts
from (deepseek.ts lines 387-399), so fields never populated keep these
defaults. -/
def defaultReport (provider : String) : ComprehensiveReport :=
  { intelligence := ("This text demonstrates sophisticated intellectual capacity through systematic analysis and complex theoretical development.").data,
    abstractThinking := ("The author shows advanced abstract thinking through their handling of complex philosophical concepts and theoretical frameworks.").data,
    originality := ("The text reveals original analytical approaches and novel conceptual distinctions.").data,
    reasoningStyle := ("The author employs systematic, analytical reasoning with careful attention to logical structure.").data,
    ambiguityHandling := ("The author skillfully manages conceptual complexity through precise definitions and systematic analysis.").data,
    metacognition := ("The author demonstrates metacognitive awareness through their systematic approach to organizing complex material.").data,
    thinkingType := ("The author exhibits systematic, convergent thinking focused on building coherent theoretical frameworks.").data,
    cognitiveComplexity := ("High cognitive complexity is evident in the integration of multiple conceptual levels and theoretical perspectives.").data,
    thinkingQuality := ("The thinking quality is sophisticated, characterized by precision, systematic analysis, and theoretical depth.").data,
    cognitiveArchetype := ("Systematic Theoretical Analyst - a mind that excels at creating coherent frameworks and precise conceptual analysis.").data,
    generatedBy := provider }

/-- updateReportWithAnswer (deepseek.ts lines 515-548): route the committed
content to the field of the given question number; numbers outside 1-10
leave the report unchanged (the switch has no default case). -/
def updateReportWithAnswer (report : ComprehensiveReport) (questionNumber : Nat)
    (content : List Char) : ComprehensiveReport :=
  if questionNumber = 1 then { report with intelligence := content }
  else if questionNumber = 2 then { report with abstractThinking := content }
  else if questionNumber = 3 then { report with originality := content }
  else if questionNumber = 4 then { report with reasoningStyle := content }
  else if questionNumber = 5 then { report with ambiguityHandling := content }
  else if questionNumber = 6 then { report with metacognition := content }
  else if questionNumber = 7 then { report with thinkingType := content }
  else if questionNumber = 8 then { report with cognitiveComplexity := content }
  else if questionNumber = 9 then { report with thinkingQuality := content }
  else if questionNumber = 10 then { report with cognitiveArchetype := content }
  else report

/-- PState is the loop state of `parseReportResponse`: the current section
cursor, the open content buffer, and the report built so far. -/
structure PState where
  currentQuestion : Nat
  currentContent : List Char
  report : ComprehensiveReport
deriving DecidableEq

/-- commitPending is the commit step the source repeats at every boundary
and at end of input: `if (currentQuestion > 0 && currentContent.trim())
updateReportWithAnswer(report, currentQuestion, currentContent.trim())`. -/
def commitPending (st : PState) : ComprehensiveReport :=
  if 0 < st.currentQuestion ∧ trimChars st.currentContent ≠ [] then
    updateReportWithAnswer st.report st.currentQuestion (trimChars st.currentContent)
  else st.report

/-- parseStep is one iteration of the line loop of `parseReportResponse`
(deepseek.ts lines 407-498): the line is trimmed; a numbered marker sets
the cursor to ITS number unconditionally (no monotonicity guard); each
keyword heading fires only under its cursor guard; any other line is
appended to the open buffer when a section is open and dropped otherwise. -/
def parseStep (st : PState) (rawLine : List Char) : PState :=
  let line := trimChars rawLine
  match parseQuestionLine line with
  | some (n, rest) =>
    { currentQuestion := n,
      currentContent := if rest ≠ [] then rest ++ ['\n'] else [],
      report := commitPending st }
  | none =>
    if headingTest1 line ∧ st.currentQuestion = 0 then
      { currentQuestion := 1, currentContent := [], report := commitPending st }
    else if headingTest2 line ∧ (st.currentQuestion = 0 ∨ st.currentQuestion = 1) then
      { currentQuestion := 2, currentContent := [], report := commitPending st }
    else if headingTest3 line ∧ st.currentQuestion ≤ 2 then
      { currentQuestion := 3, currentContent := [], report := commitPending st }
    else if headingTest4 line ∧ st.currentQuestion ≤ 3 then
      { currentQuestion := 4, currentContent := [], report := commitPending st }
    else if headingTest5 line ∧ st.currentQuestion ≤ 4 then
      { currentQuestion := 5, currentContent := [], report := commitPending st }
    else if headingTest6 line ∧ st.currentQuestion ≤ 5 then
      { currentQuestion := 6, currentContent := [], report := commitPending st }
    else if headingTest7 line ∧ st.currentQuestion ≤ 6 then
      { currentQuestion := 7, currentContent := [], report := commitPending st }
    else if headingTest8 line ∧ st.currentQuestion ≤ 7 then
      { currentQuestion := 8, currentContent := [], report := commitPending st }
    else if headingTest9 line ∧ st.currentQuestion ≤ 8 then
      { currentQuestion := 9, currentContent := [], report := commitPending st }
    else if headingTest10 line ∧ st.currentQuestion ≤ 9 then
      { currentQuestion := 10, currentContent := [], report := commitPending st }
    else if 0 < st.currentQuestion then
      { st with currentContent := st.currentContent ++ line ++ ['\n'] }
    else st

/-- parseReportResponse (deepseek.ts lines 384-510): fold the line loop
over `content.split('\n')` starting from the pre-seeded report, then flush
the last open buffer.  The body is pure, so the source's surrounding
try/catch can never take its fallback branch. -/
def parseReportResponse (content : List Char) (provider : String) : ComprehensiveReport :=
  let lines := splitOnNl content
  let final := lines.foldl parseStep
    { currentQuestion := 0, currentContent := [], report := defaultReport provider }
  commitPending final

/-- isBoundaryLine: a trimmed line is a recognizable section boundary when
the numbered-marker regex or any of the ten heading regexes matches it. -/
def isBoundaryLine (l : List Char) : Bool :=
  (parseQuestionLine l).isSome || headingTest1 l || headingTest2 l || headingTest3 l ||
  headingTest4 l || headingTest5 l || headingTest6 l || headingTest7 l ||
  headingTest8 l || headingTest9 l || headingTest10 l

/-- joinNl is the right inverse of `splitOnNl`: interleave lines with
newlines. -/
def joinNl : List (List Char) → List Char
  | [] => []
  | [x] => x
  | x :: y :: rest => x ++ '\n' :: joinNl (y :: rest)

/-- c4Input reopens section 1 by a numbered marker after section 2 has
started. -/
def c4Input : List Char := ("1. A\n2. B\n1. C").data

/-- c5Input has exactly ten correctly numbered ascending sections; the
tenth body spans two indented lines. -/
def c5Input : List Char :=
  ("1. s1\n2. s2\n3. s3\n4. s4\n5. s5\n6. s6\n7. s7\n8. s8\n9. s9\n10.\n  x\n   y").data

/-! ## Concrete stores used by witnesses and counterexamples -/

/-- c1U is a non-admin user with initial balance 10. -/
def c1U : UserRow := { email := "alice@example.com", token_balance := 10 }

/-- c1St is a store containing only `c1U` and an empty ledger. -/
def c1St : DbState := { users := [("u1", c1U)], sessions := [], ledger := [], payments := [] }

/-- c2U is an admin user (allow-listed email, mixed case) whose balance is
strictly below the sentinel. -/
def c2U : UserRow := { email := "JMKuczynski@Yahoo.com", token_balance := 5 }

/-- c2St is a store containing only the admin user `c2U`. -/
def c2St : DbState := { users := [("a1", c2U)], sessions := [], ledger := [], payments := [] }

/-- c3St is a store whose session "s" has recorded cumulative usage exactly
equal to the lifetime cap. -/
def c3St : DbState :=
  { users := [], sessions := [("s", { tokens_used := 1000 })], ledger := [], payments := [] }

/-- c8U is a non-admin user whose balance (3) is smaller than the debit the
counterexample applies. -/
def c8U : UserRow := { email := "someone@example.com", token_balance := 3 }

/-- c8St is a store containing only `c8U`. -/
def c8St : DbState := { users := [("u1", c8U)], sessions := [], ledger := [], payments := [] }

/-- c10St is a store with no anonymous sessions at all. -/
def c10St : DbState := { users := [], sessions := [], ledger := [], payments := [] }

/-- c6U is the purchasing user of the payment examples (balance 7). -/
def c6U : UserRow := { email := "buyer@example.net", token_balance := 7 }

/-- c6St is a store containing only `c6U`, with no payments yet. -/
def c6St : DbState := { users := [("u1", c6U)], sessions := [], ledger := [], payments := [] }

/-- c6Env is the processor state after confirming intent "pi_1" whose intact
metadata requests 0 tokens (metadata_tokens = toString 0). -/
def c6Env : List (String × StripeIntent) :=
  [("pi_1", { id := "pi_1", status := "succeeded",
              metadata_userId := "u1", metadata_tokens := "0" })]

/-- c6WEnv is the processor state after confirming intent "pi_2" whose
intact metadata requests 2000 tokens. -/
def c6WEnv : List (String × StripeIntent) :=
  [("pi_2", { id := "pi_2", status := "succeeded",
              metadata_userId := "u1", metadata_tokens := "2000" })]

/-! ## Basic lemmas about the storage model -/

theorem mathCeil_eq_ceil (q : ℚ) : mathCeil q = Int.ceil q := by
  have h : ((-q).floor : ℤ) = ⌊-q⌋ := by
    rw [Rat.floor_def' (-q), ← Rat.floor_def]
  rw [mathCeil, h, Int.floor_neg, neg_neg]

theorem alookup_aupdate_self {α : Type} (l : List (String × α)) (key : String) (f : α → α) :
    alookup (aupdate l key f) key = (alookup l key).map f := by
  induction l with
  | nil => rfl
  | cons p t ih =>
    obtain ⟨k, v⟩ := p
    simp only [aupdate, List.map_cons]
    by_cases h : k = key
    · subst h
      rw [if_pos rfl]
      simp [alookup]
    · rw [if_neg h]
      simp only [alookup, if_neg h]
      simpa [aupdate] using ih

theorem getUserDb_update_self (st : DbState) (uid : String) (b : ℤ) :
    getUserDb (updateUserTokenBalanceDb st uid b) uid =
      (getUserDb st uid).map (fun u => { u with token_balance := b }) := by
  simp [getUserDb, updateUserTokenBalanceDb, alookup_aupdate_self]

theorem getSessionDb_update_self (st : DbState) (sid : String) (t : ℤ) :
    getAnonymousSessionDb (updateAnonymousSessionTokensDb st sid t) sid =
      (getAnonymousSessionDb st sid).map (fun _ => { tokens_used := t }) := by
  simp [getAnonymousSessionDb, updateAnonymousSessionTokensDb, alookup_aupdate_self]

/-! ## C7 — upload cost example -/

/-- C7: for a 250-word input, `calculateUploadCost` returns the
per-100-words rate multiplied by 3 (since ceil(250/100) = 3), floored at
the minimum cost constant: max(3 × rate, minimum) — concretely 100. -/
theorem c7_upload_cost_example :
    TokenService.calculateUploadCost 250 =
      max (3 * TokenService.UPLOAD_COST_PER_100_WORDS) TokenService.MIN_UPLOAD_COST ∧
    TokenService.calculateUploadCost 250 = 100 := by
  have h : mathCeil (((250 : ℤ) : ℚ) / 100) = 3 := by
    rw [mathCeil_eq_ceil, show (((250 : ℤ) : ℚ) / 100) = 5 / 2 by norm_num,
      Int.ceil_eq_iff]
    constructor <;> norm_num
  have hc : TokenService.calculateUploadCost 250 =
      max (3 * TokenService.UPLOAD_COST_PER_100_WORDS) TokenService.MIN_UPLOAD_COST := by
    unfold TokenService.calculateUploadCost
    rw [h]
  exact ⟨hc, by rw [hc]; decide⟩

theorem getUserDb_createUsage (st : DbState) (r : TokenUsageRow) (uid : String) :
    getUserDb (createTokenUsageDb st r) uid = getUserDb st uid := rfl

theorem getUserDb_createPayment (st : DbState) (r : PaymentRow) (uid : String) :
    getUserDb (createPaymentDb st r) uid = getUserDb st uid := rfl

theorem getUserDb_updatePaymentStatus (st : DbState) (pid s uid : String) :
    getUserDb (updatePaymentStatusDb st pid s) uid = getUserDb st uid := rfl

theorem getSessionDb_createUsage (st : DbState) (r : TokenUsageRow) (sid : String) :
    getAnonymousSessionDb (createTokenUsageDb st r) sid = getAnonymousSessionDb st sid := rfl

/-! ## C2 — admin sentinel self-healing -/

/-- C2: for a user whose email is on the fixed admin allow-list, any call of
`checkRegisteredUserTokens` returns canProceed = true with currentBalance
equal to the unlimited sentinel 999999999, and immediately afterwards the
user's STORED balance is at least the sentinel — even if it was strictly
below it before the call (self-healing). -/
theorem c2_admin_selfheal (st : DbState) (uid : String) (u : UserRow) (required : ℤ)
    (hu : getUserDb st uid = some u) (ha : TokenService.isAdminEmail u.email = true) :
    (TokenService.checkRegisteredUserTokens dbStorage st uid required).2.canProceed = true ∧
    (TokenService.checkRegisteredUserTokens dbStorage st uid required).2.currentBalance =
      TokenService.ADMIN_SENTINEL ∧
    ∃ u', getUserDb (TokenService.checkRegisteredUserTokens dbStorage st uid required).1 uid =
        some u' ∧ TokenService.ADMIN_SENTINEL ≤ u'.token_balance := by
  have hg : dbStorage.getUser st uid = some u := hu
  unfold TokenService.checkRegisteredUserTokens
  rw [hg]
  simp only [ha, if_true]
  by_cases hb : u.token_balance < TokenService.ADMIN_SENTINEL
  · rw [if_pos hb]
    refine ⟨trivial, trivial, { u with token_balance := TokenService.ADMIN_SENTINEL }, ?_, le_refl _⟩
    show getUserDb (updateUserTokenBalanceDb st uid TokenService.ADMIN_SENTINEL) uid = _
    rw [getUserDb_update_self, hu]
    rfl
  · rw [if_neg hb]
    exact ⟨trivial, trivial, u, hu, le_of_not_lt hb⟩

/-- c2_admin_selfheal witness: the concrete store `c2St` holds the admin
user `c2U` with balance 5 < sentinel; the theorem applies and yields the
self-healed balance. -/
theorem c2_admin_selfheal_witness :
    getUserDb c2St "a1" = some c2U ∧ TokenService.isAdminEmail c2U.email = true ∧
    ((TokenService.checkRegisteredUserTokens dbStorage c2St "a1" 7).2.canProceed = true ∧
     (TokenService.checkRegisteredUserTokens dbStorage c2St "a1" 7).2.currentBalance =
       TokenService.ADMIN_SENTINEL ∧
     ∃ u', getUserDb (TokenService.checkRegisteredUserTokens dbStorage c2St "a1" 7).1 "a1" =
         some u' ∧ TokenService.ADMIN_SENTINEL ≤ u'.token_balance) :=
  ⟨by decide, by decide, c2_admin_selfheal c2St "a1" c2U 7 (by decide) (by decide)⟩

/-! ## C3 — free-tier lifetime cap -/

/-- C3 counterexample: session "s" of `c3St` has recorded cumulative usage
1000 ≥ the lifetime cap, yet `checkFreeUserLimits` with the non-negative
call size (0, 0) returns canProceed = true — refuting the claim that once
usage ≥ cap every call is refused regardless of size. -/
theorem c3_counterexample :
    TokenService.FREE_TOKEN_LIMIT ≤ usageOfDb c3St "s" ∧
    (TokenService.checkFreeUserLimits dbStorage c3St "s" 0 0).canProceed = true := by
  decide

/-- C3 amended: the cap does fail closed for every call requesting at least
one token once usage has reached the cap, and for every non-negative call
whatsoever once usage strictly exceeds the cap. -/
theorem c3_lifetime_cap_fails_closed (st : DbState) (sid : String) (inT outT : ℤ)
    (hcap : TokenService.FREE_TOKEN_LIMIT ≤ usageOfDb st sid) :
    (1 ≤ inT + outT →
      (TokenService.checkFreeUserLimits dbStorage st sid inT outT).canProceed = false) ∧
    (TokenService.FREE_TOKEN_LIMIT < usageOfDb st sid → 0 ≤ inT → 0 ≤ outT →
      (TokenService.checkFreeUserLimits dbStorage st sid inT outT).canProceed = false) := by
  have key : ∀ h : TokenService.FREE_TOKEN_LIMIT < usageOfDb st sid + (inT + outT),
      (TokenService.checkFreeUserLimits dbStorage st sid inT outT).canProceed = false := by
    intro h
    have e : ((dbStorage.getAnonymousSession st sid).map (·.tokens_used)).getD 0 =
        usageOfDb st sid := rfl
    unfold TokenService.checkFreeUserLimits
    rw [e]
    dsimp only
    split_ifs with h1 h2
    · rfl
    · rfl
    · rfl
  refine ⟨fun hs => key (by linarith), fun hgt hin hout => key (by linarith)⟩

/-- c3_lifetime_cap_fails_closed witness: at usage exactly 1000 a (1, 0)
call is refused, and the strict-excess conjunct holds vacuously-checked at
the same store. -/
theorem c3_lifetime_cap_witness :
    TokenService.FREE_TOKEN_LIMIT ≤ usageOfDb c3St "s" ∧
    (1 ≤ (1 : ℤ) + 0 →
      (TokenService.checkFreeUserLimits dbStorage c3St "s" 1 0).canProceed = false) ∧
    (TokenService.FREE_TOKEN_LIMIT < usageOfDb c3St "s" → 0 ≤ (1 : ℤ) → 0 ≤ (0 : ℤ) →
      (TokenService.checkFreeUserLimits dbStorage c3St "s" 1 0).canProceed = false) :=
  ⟨by decide, (c3_lifetime_cap_fails_closed c3St "s" 1 0 (by decide)).1,
    (c3_lifetime_cap_fails_closed c3St "s" 1 0 (by decide)).2⟩

/-! ## C8 — unguarded debit can go negative -/

/-- C8: for every existing non-admin user and positive amount,
`deductRegisteredUserTokens` succeeds unconditionally — no sufficiency
check — and persists exactly old balance − ceil(amount); in particular the
concrete store `c8St` (balance 3, debit 7) is driven to the strictly
negative persisted balance −4. -/
theorem c8_unguarded_debit :
    (∀ (st : DbState) (uid : String) (u : UserRow) (amt : ℚ) (ev d : String),
      getUserDb st uid = some u → TokenService.isAdminEmail u.email = false → 0 < amt →
      ∃ st', TokenService.deductRegisteredUserTokens dbStorage st uid amt ev d = some st' ∧
        getUserDb st' uid = some { u with token_balance := u.token_balance - mathCeil amt }) ∧
    (∃ st', TokenService.deductRegisteredUserTokens dbStorage c8St "u1" 7 "analysis" "d" =
        some st' ∧ balanceOfDb st' "u1" < 0) := by
  constructor
  · intro st uid u amt ev d hu ha _hpos
    have hg : dbStorage.getUser st uid = some u := hu
    unfold TokenService.deductRegisteredUserTokens
    rw [hg]
    simp only [ha, Bool.false_eq_true, if_false]
    refine ⟨_, rfl, ?_⟩
    simp only [dbStorage]
    rw [getUserDb_createUsage, getUserDb_update_self, hu]
    rfl
  · exact ⟨_, rfl, by decide⟩

/-- c8_unguarded_debit witness: the universal conjunct applied to the
concrete store `c8St`, user `c8U`, amount 7. -/
theorem c8_unguarded_debit_witness :
    getUserDb c8St "u1" = some c8U ∧ TokenService.isAdminEmail c8U.email = false ∧
    (0 : ℚ) < 7 ∧
    (∃ st', TokenService.deductRegisteredUserTokens dbStorage c8St "u1" 7 "analysis" "d" =
        some st' ∧
      getUserDb st' "u1" = some { c8U with token_balance := c8U.token_balance - mathCeil 7 }) :=
  ⟨by decide, by decide, by norm_num,
    c8_unguarded_debit.1 c8St "u1" c8U 7 "analysis" "d" (by decide) (by decide) (by norm_num)⟩

/-! ## C10 — absent session is not an error at the check interface -/

/-- C10: when no anonymous-session row exists for a session id, both check
operations treat cumulative usage as 0 and return a plain decision (their
result types have no failure case): `checkFreeUserLimits` proceeds exactly
when the fresh-session per-call and lifetime limits are met, and the
alternate `checkAnonymousUserTokens` reports a full remaining budget and
proceeds exactly when the requirement fits inside it. -/
theorem c10_absent_session_is_fresh (st : DbState) (sid : String) (inT outT required : ℤ)
    (h : getAnonymousSessionDb st sid = none) :
    (TokenService.checkFreeUserLimits dbStorage st sid inT outT).tokensUsed = 0 ∧
    ((TokenService.checkFreeUserLimits dbStorage st sid inT outT).canProceed = true ↔
      (inT ≤ TokenService.FREE_INPUT_LIMIT ∧ outT ≤ TokenService.FREE_OUTPUT_LIMIT ∧
        inT + outT ≤ TokenService.FREE_TOKEN_LIMIT)) ∧
    (TokenServiceAlt.checkAnonymousUserTokens dbStorage st sid required).tokensUsed = 0 ∧
    (TokenServiceAlt.checkAnonymousUserTokens dbStorage st sid required).remainingTokens =
      TokenServiceAlt.FREE_TOKEN_LIMIT ∧
    ((TokenServiceAlt.checkAnonymousUserTokens dbStorage st sid required).canProceed = true ↔
      required ≤ TokenServiceAlt.FREE_TOKEN_LIMIT) := by
  have hg : dbStorage.getAnonymousSession st sid = none := h
  unfold TokenService.checkFreeUserLimits TokenServiceAlt.checkAnonymousUserTokens
  rw [hg]
  simp only [Option.map_none', Option.getD_none]
  refine ⟨?_, ?_, ?_, ?_, ?_⟩
  · split_ifs <;> rfl
  · split_ifs with h1 h2 h3
    · simp only [Bool.false_eq_true, false_iff]
      intro hc
      exact absurd hc.1 (not_le.mpr h1)
    · simp only [Bool.false_eq_true, false_iff]
      intro hc
      exact absurd hc.2.1 (not_le.mpr h2)
    · simp only [Bool.false_eq_true, false_iff]
      intro hc
      have := hc.2.2
      simp only [zero_add] at h3
      exact absurd this (not_le.mpr h3)
    · simp only [true_iff]
      simp only [zero_add] at h3
      exact ⟨le_of_not_lt h1, le_of_not_lt h2, le_of_not_lt h3⟩
  · trivial
  · simp
  · simp [sub_zero, decide_eq_true_eq]

/-- c10_absent_session_is_fresh witness: applied to the empty store `c10St`
with a call of 100 input, 50 output, requirement 400. -/
theorem c10_absent_session_witness :
    getAnonymousSessionDb c10St "nosuch" = none ∧
    ((TokenService.checkFreeUserLimits dbStorage c10St "nosuch" 100 50).tokensUsed = 0 ∧
     ((TokenService.checkFreeUserLimits dbStorage c10St "nosuch" 100 50).canProceed = true ↔
       ((100 : ℤ) ≤ TokenService.FREE_INPUT_LIMIT ∧
         (50 : ℤ) ≤ TokenService.FREE_OUTPUT_LIMIT ∧
         (100 : ℤ) + 50 ≤ TokenService.FREE_TOKEN_LIMIT)) ∧
     (TokenServiceAlt.checkAnonymousUserTokens dbStorage c10St "nosuch" 400).tokensUsed = 0 ∧
     (TokenServiceAlt.checkAnonymousUserTokens dbStorage c10St "nosuch" 400).remainingTokens =
       TokenServiceAlt.FREE_TOKEN_LIMIT ∧
     ((TokenServiceAlt.checkAnonymousUserTokens dbStorage c10St "nosuch" 400).canProceed = true ↔
       (400 : ℤ) ≤ TokenServiceAlt.FREE_TOKEN_LIMIT)) :=
  ⟨by decide, c10_absent_session_is_fresh c10St "nosuch" 100 50 400 (by decide)⟩

/-! ## Single-step lemmas for the ledger invariant -/

theorem deductFree_ledger (st : DbState) (sid : String) (amt : ℚ) (d : String) :
    (TokenService.deductFreeUserTokens dbStorage st sid amt d).ledger =
      freeRow st sid amt d :: st.ledger := by
  unfold TokenService.deductFreeUserTokens freeRow
  simp only [dbStorage]
  cases h : getAnonymousSessionDb st sid with
  | none =>
    have hz : usageOfDb st sid = 0 := by simp [usageOfDb, h]
    rw [hz]
    rfl
  | some s =>
    have hz : usageOfDb st sid = s.tokens_used := by simp [usageOfDb, h]
    rw [hz]
    rfl

theorem deductFree_usage (st : DbState) (sid : String) (amt : ℚ) (d : String) :
    usageOfDb (TokenService.deductFreeUserTokens dbStorage st sid amt d) sid =
      usageOfDb st sid + mathCeil amt := by
  unfold TokenService.deductFreeUserTokens
  simp only [dbStorage]
  cases h : getAnonymousSessionDb st sid with
  | none =>
    have h2 : alookup st.sessions sid = none := h
    simp [usageOfDb, getAnonymousSessionDb, createTokenUsageDb, createAnonymousSessionDb,
      alookup, h2]
  | some s =>
    have h2 : alookup st.sessions sid = some s := h
    simp [usageOfDb, getAnonymousSessionDb, createTokenUsageDb,
      updateAnonymousSessionTokensDb, alookup_aupdate_self, h2]

theorem deductReg_step (st : DbState) (uid : String) (u : UserRow) (amt : ℚ) (ev d : String)
    (hu : getUserDb st uid = some u) (ha : TokenService.isAdminEmail u.email = false) :
    TokenService.deductRegisteredUserTokens dbStorage st uid amt ev d =
      some (createTokenUsageDb
        (updateUserTokenBalanceDb st uid (u.token_balance - mathCeil amt))
        (regRow u uid amt ev d)) := by
  have hg : dbStorage.getUser st uid = some u := hu
  unfold TokenService.deductRegisteredUserTokens regRow
  rw [hg]
  simp only [ha, Bool.false_eq_true, if_false]
  rfl

theorem addTokens_step (st : DbState) (uid : String) (u : UserRow) (amt : ℤ)
    (hu : getUserDb st uid = some u) :
    TokenService.addTokensToUser dbStorage st uid amt =
      some (createTokenUsageDb
        (updateUserTokenBalanceDb st uid (u.token_balance + amt))
        (creditRow u uid amt)) := by
  have hg : dbStorage.getUser st uid = some u := hu
  unfold TokenService.addTokensToUser creditRow
  rw [hg]
  rfl

/-! ## Sequence lemmas for the ledger invariant -/

theorem sessionOps_ledger_sum (ops : List (ℚ × String)) :
    ∀ (st : DbState) (sid : String),
    ∃ rows : List TokenUsageRow,
      (applySessionOps st sid ops).ledger = rows ++ st.ledger ∧
      (∀ r ∈ rows, r.session_id = some sid) ∧
      usageOfDb (applySessionOps st sid ops) sid =
        usageOfDb st sid + (rows.map (·.tokens_used)).sum := by
  induction ops with
  | nil =>
    intro st sid
    exact ⟨[], by simp [applySessionOps], by simp, by simp [applySessionOps]⟩
  | cons op rest ih =>
    intro st sid
    obtain ⟨rows', h1, h2, h3⟩ :=
      ih (TokenService.deductFreeUserTokens dbStorage st sid op.1 op.2) sid
    refine ⟨rows' ++ [freeRow st sid op.1 op.2], ?_, ?_, ?_⟩
    · show (applySessionOps (TokenService.deductFreeUserTokens dbStorage st sid op.1 op.2)
        sid rest).ledger = _
      rw [h1, deductFree_ledger]
      simp
    · intro r hr
      rcases List.mem_append.mp hr with hr' | hr'
      · exact h2 r hr'
      · rw [List.mem_singleton.mp hr']
        rfl
    · show usageOfDb (applySessionOps (TokenService.deductFreeUserTokens dbStorage st sid
        op.1 op.2) sid rest) sid = _
      rw [h3, deductFree_usage]
      simp [freeRow]
      ring

theorem regOps_ledger_sum (ops : List RegOp) :
    ∀ (st : DbState) (uid : String) (u : UserRow),
    getUserDb st uid = some u → TokenService.isAdminEmail u.email = false →
    ∃ (st' : DbState) (rows : List TokenUsageRow),
      applyRegOps st uid ops = some st' ∧
      st'.ledger = rows ++ st.ledger ∧
      (∀ r ∈ rows, r.user_id = some uid) ∧
      getUserDb st' uid =
        some { u with token_balance := u.token_balance - (rows.map (·.tokens_used)).sum } := by
  induction ops with
  | nil =>
    intro st uid u hu ha
    refine ⟨st, [], rfl, rfl, by simp, ?_⟩
    simpa using hu
  | cons op rest ih =>
    intro st uid u hu ha
    cases op with
    | deduct amt ev d =>
      obtain ⟨st', rows', hr1, hr2, hr3, hr4⟩ :=
        ih (createTokenUsageDb
            (updateUserTokenBalanceDb st uid (u.token_balance - mathCeil amt))
            (regRow u uid amt ev d)) uid
          { u with token_balance := u.token_balance - mathCeil amt }
          (by rw [getUserDb_createUsage, getUserDb_update_self, hu]; rfl) ha
      refine ⟨st', rows' ++ [regRow u uid amt ev d], ?_, ?_, ?_, ?_⟩
      · show (applyRegOp st uid (.deduct amt ev d)).bind (fun s => applyRegOps s uid rest) =
          some st'
        rw [show applyRegOp st uid (.deduct amt ev d) =
          TokenService.deductRegisteredUserTokens dbStorage st uid amt ev d from rfl,
          deductReg_step st uid u amt ev d hu ha]
        exact hr1
      · rw [hr2]
        show rows' ++ (regRow u uid amt ev d :: st.ledger) = _
        simp
      · intro r hr
        rcases List.mem_append.mp hr with hr' | hr'
        · exact hr3 r hr'
        · rw [List.mem_singleton.mp hr']
          rfl
      · rw [hr4]
        simp only [List.map_append, List.sum_append, List.map_cons, List.map_nil,
          List.sum_cons, List.sum_nil]
        rw [Option.some_inj]
        refine congrArg (UserRow.mk u.email) ?_
        rw [show (regRow u uid amt ev d).tokens_used = mathCeil amt from rfl]
        ring
    | credit amt =>
      obtain ⟨st', rows', hr1, hr2, hr3, hr4⟩ :=
        ih (createTokenUsageDb
            (updateUserTokenBalanceDb st uid (u.token_balance + amt))
            (creditRow u uid amt)) uid
          { u with token_balance := u.token_balance + amt }
          (by rw [getUserDb_createUsage, getUserDb_update_self, hu]; rfl) ha
      refine ⟨st', rows' ++ [creditRow u uid amt], ?_, ?_, ?_, ?_⟩
      · show (applyRegOp st uid (.credit amt)).bind (fun s => applyRegOps s uid rest) =
          some st'
        rw [show applyRegOp st uid (.credit amt) =
          TokenService.addTokensToUser dbStorage st uid amt from rfl,
          addTokens_step st uid u amt hu]
        exact hr1
      · rw [hr2]
        show rows' ++ (creditRow u uid amt :: st.ledger) = _
        simp
      · intro r hr
        rcases List.mem_append.mp hr with hr' | hr'
        · exact hr3 r hr'
        · rw [List.mem_singleton.mp hr']
          rfl
      · rw [hr4]
        simp only [List.map_append, List.sum_append, List.map_cons, List.map_nil,
          List.sum_cons, List.sum_nil]
        rw [Option.some_inj]
        refine congrArg (UserRow.mk u.email) ?_
        rw [show (creditRow u uid amt).tokens_used = -amt from rfl]
        ring

/-! ## C1 — ledger reconstruction invariant -/

/-- C1 counterexample: a single non-admin debit of 5 on user "u1" of `c1St`
(initial balance 10) leaves stored balance 5 and records the single ledger
delta +5 (debits positive), but initial balance PLUS the signed delta sum
is 15 ≠ 5 — refuting the claim that the stored balance equals the initial
balance plus the signed sum of the recorded `tokens_used` deltas. -/
theorem c1_counterexample :
    (applyRegOps c1St "u1" [RegOp.deduct 5 "analysis" "d"]).map
        (fun s => balanceOfDb s "u1") = some 5 ∧
    (applyRegOps c1St "u1" [RegOp.deduct 5 "analysis" "d"]).map
        (fun s => (s.ledger.map (·.tokens_used)).sum) = some 5 ∧
    balanceOfDb c1St "u1" + 5 ≠ (5 : ℤ) := by
  refine ⟨?_, ?_, by decide⟩ <;> decide

/-- C1 amended: for any finite sequence of debits on one anonymous session,
the stored cumulative usage equals the initial usage PLUS the sum of the
recorded deltas; for any finite sequence of debits and purchase credits on
one existing NON-ADMIN user, the stored balance equals the initial balance
MINUS the signed sum of the recorded deltas (debits recorded positive,
credits negative).  Admin users are excluded: they are logged but never
debited, so no ledger reconstruction holds for them. -/
theorem c1_ledger_reconstruction :
    (∀ (st : DbState) (sid : String) (ops : List (ℚ × String)),
      ∃ rows : List TokenUsageRow,
        (applySessionOps st sid ops).ledger = rows ++ st.ledger ∧
        (∀ r ∈ rows, r.session_id = some sid) ∧
        usageOfDb (applySessionOps st sid ops) sid =
          usageOfDb st sid + (rows.map (·.tokens_used)).sum) ∧
    (∀ (st : DbState) (uid : String) (u : UserRow) (ops : List RegOp),
      getUserDb st uid = some u → TokenService.isAdminEmail u.email = false →
      ∃ (st' : DbState) (rows : List TokenUsageRow),
        applyRegOps st uid ops = some st' ∧
        st'.ledger = rows ++ st.ledger ∧
        (∀ r ∈ rows, r.user_id = some uid) ∧
        getUserDb st' uid =
          some { u with
            token_balance := u.token_balance - (rows.map (·.tokens_used)).sum }) :=
  ⟨fun st sid ops => sessionOps_ledger_sum ops st sid,
   fun st uid u ops hu ha => regOps_ledger_sum ops st uid u hu ha⟩

/-- c1_ledger_reconstruction witness: the user conjunct applied to the
concrete store `c1St` and the two-operation sequence debit 5 then credit
20 (the session conjunct has no hypotheses to discharge; the user conjunct
is instantiated with its two hypotheses decided concretely). -/
theorem c1_ledger_reconstruction_witness :
    getUserDb c1St "u1" = some c1U ∧ TokenService.isAdminEmail c1U.email = false ∧
    (∃ (st' : DbState) (rows : List TokenUsageRow),
      applyRegOps c1St "u1" [RegOp.deduct 5 "analysis" "d", RegOp.credit 20] = some st' ∧
      st'.ledger = rows ++ c1St.ledger ∧
      (∀ r ∈ rows, r.user_id = some "u1") ∧
      getUserDb st' "u1" =
        some { c1U with
          token_balance := c1U.token_balance - (rows.map (·.tokens_used)).sum }) :=
  ⟨by decide, by decide,
    c1_ledger_reconstruction.2 c1St "u1" c1U [RegOp.deduct 5 "analysis" "d", RegOp.credit 20]
      (by decide) (by decide)⟩

/-! ## C9 — the in-memory fallback never accumulates anonymous usage -/

/-- C9: under the in-memory fallback store (selected when no database
connection string is configured), `getAnonymousSession` returns absence
for every session id and `updateAnonymousSessionTokens` is a no-op; every
sequence of free-tier debits leaves the store unchanged, so every
`checkFreeUserLimits` call observes cumulative usage 0 and decides exactly
as for a fresh session — the anonymous lifetime cap is never reached. -/
theorem c9_mem_fallback_never_accumulates :
    usesMemStorage none = true ∧
    (∀ (st : MemState) (sid : String), memStorage.getAnonymousSession st sid = none) ∧
    (∀ (st : MemState) (sid : String) (t : ℤ),
      memStorage.updateAnonymousSessionTokens st sid t = st) ∧
    (∀ (st : MemState) (ops : List (String × ℚ × String)), applyFreeOpsMem st ops = st) ∧
    (∀ (st : MemState) (ops : List (String × ℚ × String)) (sid : String) (inT outT : ℤ),
      (TokenService.checkFreeUserLimits memStorage (applyFreeOpsMem st ops)
          sid inT outT).tokensUsed = 0 ∧
      ((TokenService.checkFreeUserLimits memStorage (applyFreeOpsMem st ops)
          sid inT outT).canProceed = true ↔
        (inT ≤ TokenService.FREE_INPUT_LIMIT ∧ outT ≤ TokenService.FREE_OUTPUT_LIMIT ∧
          inT + outT ≤ TokenService.FREE_TOKEN_LIMIT))) := by
  have happly : ∀ (ops : List (String × ℚ × String)) (st : MemState),
      applyFreeOpsMem st ops = st := by
    intro ops
    induction ops with
    | nil => intro st; rfl
    | cons op rest ih => intro st; exact ih _
  refine ⟨rfl, fun st sid => rfl, fun st sid t => rfl, fun st ops => happly ops st, ?_⟩
  intro st ops sid inT outT
  unfold TokenService.checkFreeUserLimits
  simp only [memStorage, Option.map_none', Option.getD_none]
  constructor
  · split_ifs <;> rfl
  · split_ifs with h1 h2 h3
    · simp only [Bool.false_eq_true, false_iff]
      intro hc
      exact absurd hc.1 (not_le.mpr h1)
    · simp only [Bool.false_eq_true, false_iff]
      intro hc
      exact absurd hc.2.1 (not_le.mpr h2)
    · simp only [Bool.false_eq_true, false_iff]
      intro hc
      simp only [zero_add] at h3
      exact absurd hc.2.2 (not_le.mpr h3)
    · simp only [true_iff]
      simp only [zero_add] at h3
      exact ⟨le_of_not_lt h1, le_of_not_lt h2, le_of_not_lt h3⟩

/-! ## C6 — payment round-trip -/

/-- C6 counterexample: a purchase of 0 tokens.  `createPaymentIntent`
stores a pending row with intact metadata (tokens = toString 0 = "0"), the
processor confirms the intent, yet `handleSuccessfulPayment` neither flips
the row to "succeeded" nor credits any tokens: the row stays "pending",
the balance stays 7 and no ledger entry is written — refuting the claim
for arbitrary token amounts. -/
theorem c6_counterexample :
    findPayment (StripeService.handleSuccessfulPayment dbStorage c6Env
        (StripeService.createPaymentIntent dbStorage c6St 100 0 "u1" "pi_1").1
        "pi_1").payments "pi_1" =
      some { user_id := "u1", stripe_payment_intent_id := "pi_1", amount_cents := 100,
             tokens_purchased := 0, status := "pending" } ∧
    getUserDb (StripeService.handleSuccessfulPayment dbStorage c6Env
        (StripeService.createPaymentIntent dbStorage c6St 100 0 "u1" "pi_1").1
        "pi_1") "u1" = some c6U ∧
    (StripeService.handleSuccessfulPayment dbStorage c6Env
        (StripeService.createPaymentIntent dbStorage c6St 100 0 "u1" "pi_1").1
        "pi_1").ledger = [] := by
  refine ⟨?_, ?_, ?_⟩ <;> decide

/-- C6 amended: for every EXISTING user and STRICTLY POSITIVE token amount,
`createPaymentIntent` followed by `handleSuccessfulPayment` on the same
intent id — with the processor reporting "succeeded" and the stored
metadata intact (user id preserved, token string parsing back to the
requested amount) — moves the local payment row from "pending" to
"succeeded" and credits the user exactly once with exactly the requested
amount (one new ledger row, a purchase of `tokens`). -/
theorem c6_round_trip (st : DbState) (u : UserRow) (uid pid s : String)
    (amount tokens : ℤ) (env : List (String × StripeIntent))
    (hu : getUserDb st uid = some u) (huid : uid ≠ "") (htok : 0 < tokens)
    (henv : alookup env pid = some ⟨pid, "succeeded", uid, s⟩)
    (hs : s ≠ "") (hparse : parseIntJs s = some tokens) :
    findPayment (StripeService.createPaymentIntent dbStorage st amount tokens uid
        pid).1.payments pid = some ⟨uid, pid, amount, tokens, "pending"⟩ ∧
    findPayment (StripeService.handleSuccessfulPayment dbStorage env
        (StripeService.createPaymentIntent dbStorage st amount tokens uid pid).1
        pid).payments pid = some ⟨uid, pid, amount, tokens, "succeeded"⟩ ∧
    getUserDb (StripeService.handleSuccessfulPayment dbStorage env
        (StripeService.createPaymentIntent dbStorage st amount tokens uid pid).1
        pid) uid = some { u with token_balance := u.token_balance + tokens } ∧
    (StripeService.handleSuccessfulPayment dbStorage env
        (StripeService.createPaymentIntent dbStorage st amount tokens uid pid).1
        pid).ledger = creditRow u uid tokens :: st.ledger ∧
    (creditRow u uid tokens).tokens_used = -tokens := by
  have hst1 : (StripeService.createPaymentIntent dbStorage st amount tokens uid pid).1 =
      createPaymentDb st ⟨uid, pid, amount, tokens, "pending"⟩ := rfl
  have hu1 : getUserDb (createPaymentDb st ⟨uid, pid, amount, tokens, "pending"⟩) uid =
      some u := hu
  have hF : StripeService.handleSuccessfulPayment dbStorage env
      (StripeService.createPaymentIntent dbStorage st amount tokens uid pid).1 pid =
      updatePaymentStatusDb (createTokenUsageDb (updateUserTokenBalanceDb
        (createPaymentDb st ⟨uid, pid, amount, tokens, "pending"⟩)
        uid (u.token_balance + tokens)) (creditRow u uid tokens)) pid "succeeded" := by
    rw [hst1]
    unfold StripeService.handleSuccessfulPayment
    rw [henv]
    dsimp only
    rw [if_pos rfl, if_neg hs, hparse]
    dsimp only
    rw [if_pos ⟨huid, htok⟩]
    rw [addTokens_step _ uid u tokens hu1]
    rfl
  refine ⟨?_, ?_, ?_, ?_, rfl⟩
  · rw [hst1]
    show findPayment ((⟨uid, pid, amount, tokens, "pending"⟩ : PaymentRow) ::
      st.payments) pid = _
    unfold findPayment
    rw [if_pos rfl]
  · rw [hF]
    unfold updatePaymentStatusDb
    show findPayment ((if pid = pid then
        ({ user_id := uid, stripe_payment_intent_id := pid, amount_cents := amount,
           tokens_purchased := tokens, status := "succeeded" } : PaymentRow)
      else ⟨uid, pid, amount, tokens, "pending"⟩) :: (st.payments.map (fun p =>
        if p.stripe_payment_intent_id = pid then { p with status := "succeeded" }
        else p))) pid = _
    rw [if_pos rfl]
    unfold findPayment
    rw [if_pos rfl]
  · have e3 : getUserDb (updatePaymentStatusDb (createTokenUsageDb
        (updateUserTokenBalanceDb (createPaymentDb st ⟨uid, pid, amount, tokens, "pending"⟩)
        uid (u.token_balance + tokens)) (creditRow u uid tokens)) pid "succeeded") uid =
        getUserDb (updateUserTokenBalanceDb
          (createPaymentDb st ⟨uid, pid, amount, tokens, "pending"⟩)
          uid (u.token_balance + tokens)) uid := rfl
    rw [hF, e3, getUserDb_update_self, hu1]
    rfl
  · rw [hF]
    rfl

/-- c6_round_trip witness: user `c6U` of `c6St` buys 2000 tokens through
intent "pi_2"; every hypothesis is discharged by computation. -/
theorem c6_round_trip_witness :
    getUserDb c6St "u1" = some c6U ∧ ("u1" : String) ≠ "" ∧ (0 : ℤ) < 2000 ∧
    alookup c6WEnv "pi_2" = some ⟨"pi_2", "succeeded", "u1", "2000"⟩ ∧
    ("2000" : String) ≠ "" ∧ parseIntJs "2000" = some 2000 ∧
    (findPayment (StripeService.createPaymentIntent dbStorage c6St 100 2000 "u1"
        "pi_2").1.payments "pi_2" = some ⟨"u1", "pi_2", 100, 2000, "pending"⟩ ∧
    findPayment (StripeService.handleSuccessfulPayment dbStorage c6WEnv
        (StripeService.createPaymentIntent dbStorage c6St 100 2000 "u1" "pi_2").1
        "pi_2").payments "pi_2" = some ⟨"u1", "pi_2", 100, 2000, "succeeded"⟩ ∧
    getUserDb (StripeService.handleSuccessfulPayment dbStorage c6WEnv
        (StripeService.createPaymentIntent dbStorage c6St 100 2000 "u1" "pi_2").1
        "pi_2") "u1" = some { c6U with token_balance := c6U.token_balance + 2000 } ∧
    (StripeService.handleSuccessfulPayment dbStorage c6WEnv
        (StripeService.createPaymentIntent dbStorage c6St 100 2000 "u1" "pi_2").1
        "pi_2").ledger = creditRow c6U "u1" 2000 :: c6St.ledger ∧
    (creditRow c6U "u1" 2000).tokens_used = -2000) :=
  ⟨by decide, by decide, by decide, by decide, by decide, by decide,
    c6_round_trip c6St c6U "u1" "pi_2" "2000" 100 2000 c6WEnv
      (by decide) (by decide) (by decide) (by decide) (by decide) (by decide)⟩

/-! ## Lemmas about trimming and line splitting -/

theorem dropWhile_head_false (p : Char → Bool) :
    ∀ (l : List Char) (c : Char), (l.dropWhile p).head? = some c → p c = false := by
  intro l
  induction l with
  | nil => intro c h; simp [List.dropWhile] at h
  | cons a t ih =>
    intro c h
    rw [List.dropWhile_cons] at h
    by_cases hp : p a
    · rw [if_pos hp] at h
      exact ih c h
    · rw [if_neg hp] at h
      simp only [List.head?_cons, Option.some_inj] at h
      rw [← h]
      exact Bool.eq_false_iff.mpr hp

theorem dropWhile_eq_self (p : Char → Bool) (l : List Char)
    (h : ∀ c, l.head? = some c → p c = false) : l.dropWhile p = l := by
  cases l with
  | nil => rfl
  | cons a t =>
    have ha := h a rfl
    rw [List.dropWhile_cons, if_neg (by simp [ha])]

theorem dropWhile_idem (p : Char → Bool) (l : List Char) :
    (l.dropWhile p).dropWhile p = l.dropWhile p :=
  dropWhile_eq_self p _ (dropWhile_head_false p l)

theorem dropWhile_suffix (p : Char → Bool) (l : List Char) :
    ∃ pre, l = pre ++ l.dropWhile p := by
  induction l with
  | nil => exact ⟨[], rfl⟩
  | cons a t ih =>
    by_cases hp : p a
    · obtain ⟨pre, hpre⟩ := ih
      refine ⟨a :: pre, ?_⟩
      rw [List.dropWhile_cons, if_pos hp, List.cons_append, ← hpre]
    · exact ⟨[], by rw [List.dropWhile_cons, if_neg hp, List.nil_append]⟩

theorem head_append_left {α : Type} (x y : List α) (c : α) (h : x.head? = some c) :
    (x ++ y).head? = some c := by
  cases x with
  | nil => simp at h
  | cons a t => simpa using h

theorem trimChars_dropWhile (l : List Char) :
    (trimChars l).dropWhile isWs = trimChars l := by
  apply dropWhile_eq_self
  intro c hc
  obtain ⟨pre, hpre⟩ := dropWhile_suffix isWs (l.dropWhile isWs).reverse
  have hw : l.dropWhile isWs = trimChars l ++ pre.reverse := by
    have := congrArg List.reverse hpre
    rw [List.reverse_reverse, List.reverse_append] at this
    exact this
  have : (l.dropWhile isWs).head? = some c := by
    rw [hw]
    exact head_append_left _ _ _ hc
  exact dropWhile_head_false isWs l c this

theorem trimChars_idem (l : List Char) : trimChars (trimChars l) = trimChars l := by
  have h1 : (trimChars l).dropWhile isWs = trimChars l := trimChars_dropWhile l
  show (((trimChars l).dropWhile isWs).reverse.dropWhile isWs).reverse = trimChars l
  rw [h1]
  show (((((l.dropWhile isWs).reverse.dropWhile isWs).reverse : List Char)).reverse.dropWhile
    isWs).reverse = trimChars l
  rw [List.reverse_reverse, dropWhile_idem]
  rfl

theorem dropWhile_append_char (p : Char → Bool) (l : List Char) (c : Char) :
    (l ++ [c]).dropWhile p =
      if (l.dropWhile p).isEmpty then [c].dropWhile p else l.dropWhile p ++ [c] := by
  induction l with
  | nil => simp
  | cons a t ih =>
    rw [List.cons_append, List.dropWhile_cons, List.dropWhile_cons]
    by_cases hp : p a
    · rw [if_pos hp, if_pos hp, ih]
    · rw [if_neg hp, if_neg hp]
      simp [List.isEmpty]

theorem trimChars_append_nl (l : List Char) : trimChars (l ++ ['\n']) = trimChars l := by
  unfold trimChars
  rw [dropWhile_append_char]
  by_cases h : (l.dropWhile isWs).isEmpty
  · rw [if_pos h]
    have he : l.dropWhile isWs = [] := by
      cases hh : l.dropWhile isWs with
      | nil => rfl
      | cons x xs => rw [hh] at h; simp [List.isEmpty] at h
    rw [he]
    rfl
  · rw [if_neg h, List.reverse_append]
    show ((('\n' :: (l.dropWhile isWs).reverse)).dropWhile isWs).reverse = _
    rw [List.dropWhile_cons, if_pos (by decide)]

theorem splitOnNl_ne_nil : ∀ l : List Char, splitOnNl l ≠ [] := by
  intro l
  cases l with
  | nil => simp [splitOnNl]
  | cons c rest =>
    unfold splitOnNl
    cases splitOnNl rest with
    | nil => simp
    | cons line lines =>
      by_cases hc : c = '\n' <;> simp [hc]

theorem splitOnNl_no_nl (l : List Char) (h : '\n' ∉ l) : splitOnNl l = [l] := by
  induction l with
  | nil => rfl
  | cons c t ih =>
    have hc : c ≠ '\n' := fun e => h (by simp [e])
    have ht : '\n' ∉ t := fun m => h (List.mem_cons_of_mem c m)
    unfold splitOnNl
    rw [ih ht]
    simp [hc]

theorem splitOnNl_cons (c : Char) (rest : List Char) :
    splitOnNl (c :: rest) =
      match splitOnNl rest with
      | [] => [[]]
      | line :: lines => if c = '\n' then [] :: line :: lines else (c :: line) :: lines := rfl

theorem splitOnNl_append_nl (x y : List Char) (h : '\n' ∉ x) :
    splitOnNl (x ++ '\n' :: y) = x :: splitOnNl y := by
  induction x with
  | nil =>
    rw [List.nil_append]
    show splitOnNl ('\n' :: y) = [] :: splitOnNl y
    rw [splitOnNl_cons]
    cases hy : splitOnNl y with
    | nil => exact absurd hy (splitOnNl_ne_nil y)
    | cons line lines => simp
  | cons c t ih =>
    have hc : c ≠ '\n' := fun e => h (by simp [e])
    have ht : '\n' ∉ t := fun m => h (List.mem_cons_of_mem c m)
    rw [List.cons_append]
    show splitOnNl (c :: (t ++ '\n' :: y)) = (c :: t) :: splitOnNl y
    rw [splitOnNl_cons, ih ht]
    simp [hc]

/-! ## Lemmas about the parser step -/

theorem parseReportResponse_def (content : List Char) (provider : String) :
    parseReportResponse content provider =
      commitPending ((splitOnNl content).foldl parseStep
        ⟨0, [], defaultReport provider⟩) := rfl

theorem boundary_question (l : List Char) (h : isBoundaryLine l = false) :
    parseQuestionLine l = none := by
  cases hq : parseQuestionLine l with
  | none => rfl
  | some x =>
    exfalso
    simp [isBoundaryLine, hq] at h

theorem boundary_tests (l : List Char) (h : isBoundaryLine l = false) :
    headingTest1 l = false ∧ headingTest2 l = false ∧ headingTest3 l = false ∧
    headingTest4 l = false ∧ headingTest5 l = false ∧ headingTest6 l = false ∧
    headingTest7 l = false ∧ headingTest8 l = false ∧ headingTest9 l = false ∧
    headingTest10 l = false := by
  simp only [isBoundaryLine, Bool.or_eq_false_iff] at h
  refine ⟨?_, ?_, ?_, ?_, ?_, ?_, ?_, ?_, ?_, ?_⟩ <;> tauto

theorem parseStep_question (st : PState) (l : List Char) (n : Nat) (rest : List Char)
    (h : parseQuestionLine (trimChars l) = some (n, rest)) :
    parseStep st l =
      { currentQuestion := n,
        currentContent := if rest ≠ [] then rest ++ ['\n'] else [],
        report := commitPending st } := by
  unfold parseStep
  simp only [h]

theorem parseStep_plain (st : PState) (l : List Char)
    (hb : isBoundaryLine (trimChars l) = false)
    (hpos : 0 < st.currentQuestion) :
    parseStep st l =
      { st with currentContent := st.currentContent ++ trimChars l ++ ['\n'] } := by
  obtain ⟨h1, h2, h3, h4, h5, h6, h7, h8, h9, h10⟩ := boundary_tests _ hb
  unfold parseStep
  simp only [boundary_question _ hb, h1, h2, h3, h4, h5, h6, h7, h8, h9, h10,
    Bool.false_eq_true, false_and, if_false, hpos, if_true]

theorem parseStep_dead (st : PState) (l : List Char)
    (hb : isBoundaryLine (trimChars l) = false)
    (h0 : st.currentQuestion = 0) :
    parseStep st l = st := by
  obtain ⟨h1, h2, h3, h4, h5, h6, h7, h8, h9, h10⟩ := boundary_tests _ hb
  unfold parseStep
  simp only [boundary_question _ hb, h1, h2, h3, h4, h5, h6, h7, h8, h9, h10,
    Bool.false_eq_true, false_and, if_false, h0, lt_self_iff_false]

theorem commitPending_zero (c : List Char) (R : ComprehensiveReport) :
    commitPending ⟨0, c, R⟩ = R := by
  unfold commitPending
  simp

theorem commitPending_line (k : Nat) (b : List Char) (R : ComprehensiveReport)
    (hk : 0 < k) (hb : trimChars b ≠ []) :
    commitPending ⟨k, trimChars b ++ ['\n'], R⟩ =
      updateReportWithAnswer R k (trimChars b) := by
  have e : trimChars (trimChars b ++ ['\n']) = trimChars b := by
    rw [trimChars_append_nl, trimChars_idem]
  unfold commitPending
  show (if 0 < k ∧ trimChars (trimChars b ++ ['\n']) ≠ [] then
    updateReportWithAnswer R k (trimChars (trimChars b ++ ['\n'])) else R) = _
  rw [e, if_pos ⟨hk, hb⟩]

theorem step_section (st : PState) (hd b : List Char) (rest : List (List Char)) (k : Nat)
    (hh : parseQuestionLine (trimChars hd) = some (k, []))
    (hk : 0 < k)
    (hbd : isBoundaryLine (trimChars b) = false) :
    List.foldl parseStep st (hd :: b :: rest) =
      List.foldl parseStep ⟨k, trimChars b ++ ['\n'], commitPending st⟩ rest := by
  rw [List.foldl_cons, List.foldl_cons, parseStep_question st hd k [] hh]
  rw [parseStep_plain _ b hbd (by exact hk)]
  rfl

theorem foldl_dead (lines : List (List Char)) :
    ∀ st : PState, (∀ l ∈ lines, isBoundaryLine (trimChars l) = false) →
    st.currentQuestion = 0 → List.foldl parseStep st lines = st := by
  induction lines with
  | nil => intro st _ _; rfl
  | cons l rest ih =>
    intro st hb h0
    rw [List.foldl_cons, parseStep_dead st l (hb l (by simp)) h0]
    exact ih st (fun x hx => hb x (by simp [hx])) h0

/-! ## C4 — long-form parser monotonicity -/

/-- C4 counterexample: in the input "1. A\n2. B\n1. C" the numbered marker
"1." appearing after section 2 has started REOPENS section 1: the final
report's intelligence field is "C" (not "A"), and "1. C" was not appended
to section 2's buffer (abstractThinking is exactly "B") — refuting the
claim that no backward transition of the section index ever occurs. -/
theorem c4_counterexample :
    (parseReportResponse c4Input "openai").intelligence = "C".data ∧
    (parseReportResponse c4Input "openai").intelligence ≠ "A".data ∧
    (parseReportResponse c4Input "openai").abstractThinking = "B".data := by
  refine ⟨?_, ?_, ?_⟩ <;> decide

theorem le_ite {c : Prop} [Decidable c] (a : ℕ) (A B : PState)
    (hA : c → a ≤ A.currentQuestion) (hB : ¬c → a ≤ B.currentQuestion) :
    a ≤ (if c then A else B).currentQuestion := by
  by_cases h : c
  · rw [if_pos h]
    exact hA h
  · rw [if_neg h]
    exact hB h

/-- C4 amended: the cursor is monotonic on every line that is NOT a
numbered marker: keyword-heading boundaries only fire under their guards
(section K's pattern is ignored once the cursor has passed K) and plain
lines leave the cursor unchanged, so such lines never move the section
index backwards.  A numbered marker, by contrast, sets the cursor to its
number unconditionally — including backwards, as the counterexample
shows. -/
theorem c4_keyword_monotonicity (st : PState) (l : List Char)
    (h : parseQuestionLine (trimChars l) = none) :
    st.currentQuestion ≤ (parseStep st l).currentQuestion := by
  unfold parseStep
  simp only [h]
  refine le_ite _ _ _ (fun h1 => by obtain ⟨-, e⟩ := h1; dsimp only; omega) (fun _ => ?_)
  refine le_ite _ _ _ (fun h2 => by obtain ⟨-, e⟩ := h2; dsimp only; omega) (fun _ => ?_)
  refine le_ite _ _ _ (fun h3 => by obtain ⟨-, e⟩ := h3; dsimp only; omega) (fun _ => ?_)
  refine le_ite _ _ _ (fun h4 => by obtain ⟨-, e⟩ := h4; dsimp only; omega) (fun _ => ?_)
  refine le_ite _ _ _ (fun h5 => by obtain ⟨-, e⟩ := h5; dsimp only; omega) (fun _ => ?_)
  refine le_ite _ _ _ (fun h6 => by obtain ⟨-, e⟩ := h6; dsimp only; omega) (fun _ => ?_)
  refine le_ite _ _ _ (fun h7 => by obtain ⟨-, e⟩ := h7; dsimp only; omega) (fun _ => ?_)
  refine le_ite _ _ _ (fun h8 => by obtain ⟨-, e⟩ := h8; dsimp only; omega) (fun _ => ?_)
  refine le_ite _ _ _ (fun h9 => by obtain ⟨-, e⟩ := h9; dsimp only; omega) (fun _ => ?_)
  refine le_ite _ _ _ (fun h10 => by obtain ⟨-, e⟩ := h10; dsimp only; omega) (fun _ => ?_)
  exact le_ite _ _ _ (fun _ => le_refl _) (fun _ => le_refl _)

/-- c4_keyword_monotonicity witness: at cursor 3 the line "originality"
(section 3's heading keyword, whose guard requires cursor ≤ 2) does not
move the cursor backwards. -/
theorem c4_keyword_monotonicity_witness :
    parseQuestionLine (trimChars ("originality").data) = none ∧
    (⟨3, [], defaultReport "openai"⟩ : PState).currentQuestion ≤
      (parseStep ⟨3, [], defaultReport "openai"⟩ ("originality").data).currentQuestion :=
  ⟨by decide,
    c4_keyword_monotonicity ⟨3, [], defaultReport "openai"⟩ ("originality").data (by decide)⟩

/-! ## C5 — long-form parser totality and correctness on clean input -/

/-- C5 counterexample: `c5Input` contains exactly ten correctly numbered
ascending sections, but section 10's body spans two indented lines; the
parser trims each line individually and commits "x\ny", while the body
with (only) surrounding whitespace trimmed is "x\n   y" — the field does
not equal the trimmed body, refuting the claim as universally stated. -/
theorem c5_counterexample :
    (parseReportResponse c5Input "openai").cognitiveArchetype = ("x\ny").data ∧
    trimChars ("  x\n   y").data = ("x\n   y").data ∧
    ("x\ny").data ≠ ("x\n   y").data := by
  refine ⟨?_, ?_, ?_⟩ <;> decide

/-- C5 amended: (a) for every input of exactly ten correctly numbered
ascending sections whose bodies are single boundary-free lines with
non-blank content, each of the ten report fields equals the corresponding
body trimmed (a body spanning several lines is instead committed as the
newline-join of its individually trimmed lines, and an all-whitespace body
leaves the default in place, as the counterexample shows); (b) for every
input with zero recognizable section boundaries every field keeps its
pre-seeded default — in both regimes the returned report is fully
populated. -/
theorem c5_parser_clean_input :
    (∀ (b1 b2 b3 b4 b5 b6 b7 b8 b9 b10 : List Char) (provider : String),
      (∀ b ∈ [b1, b2, b3, b4, b5, b6, b7, b8, b9, b10],
        '\n' ∉ b ∧ isBoundaryLine (trimChars b) = false ∧ trimChars b ≠ []) →
      parseReportResponse (joinNl [("1.").data, b1, ("2.").data, b2, ("3.").data, b3,
          ("4.").data, b4, ("5.").data, b5, ("6.").data, b6, ("7.").data, b7,
          ("8.").data, b8, ("9.").data, b9, ("10.").data, b10]) provider =
        { defaultReport provider with
          intelligence := trimChars b1,
          abstractThinking := trimChars b2,
          originality := trimChars b3,
          reasoningStyle := trimChars b4,
          ambiguityHandling := trimChars b5,
          metacognition := trimChars b6,
          thinkingType := trimChars b7,
          cognitiveComplexity := trimChars b8,
          thinkingQuality := trimChars b9,
          cognitiveArchetype := trimChars b10 }) ∧
    (∀ (content : List Char) (provider : String),
      (∀ l ∈ splitOnNl content, isBoundaryLine (trimChars l) = false) →
      parseReportResponse content provider = defaultReport provider) := by
  constructor
  · intro b1 b2 b3 b4 b5 b6 b7 b8 b9 b10 provider hb
    obtain ⟨n1, d1, e1⟩ := hb b1 (by simp)
    obtain ⟨n2, d2, e2⟩ := hb b2 (by simp)
    obtain ⟨n3, d3, e3⟩ := hb b3 (by simp)
    obtain ⟨n4, d4, e4⟩ := hb b4 (by simp)
    obtain ⟨n5, d5, e5⟩ := hb b5 (by simp)
    obtain ⟨n6, d6, e6⟩ := hb b6 (by simp)
    obtain ⟨n7, d7, e7⟩ := hb b7 (by simp)
    obtain ⟨n8, d8, e8⟩ := hb b8 (by simp)
    obtain ⟨n9, d9, e9⟩ := hb b9 (by simp)
    obtain ⟨n10, d10, e10⟩ := hb b10 (by simp)
    have q1 : parseQuestionLine (trimChars ("1.").data) = some (1, []) := by decide
    have q2 : parseQuestionLine (trimChars ("2.").data) = some (2, []) := by decide
    have q3 : parseQuestionLine (trimChars ("3.").data) = some (3, []) := by decide
    have q4 : parseQuestionLine (trimChars ("4.").data) = some (4, []) := by decide
    have q5 : parseQuestionLine (trimChars ("5.").data) = some (5, []) := by decide
    have q6 : parseQuestionLine (trimChars ("6.").data) = some (6, []) := by decide
    have q7 : parseQuestionLine (trimChars ("7.").data) = some (7, []) := by decide
    have q8 : parseQuestionLine (trimChars ("8.").data) = some (8, []) := by decide
    have q9 : parseQuestionLine (trimChars ("9.").data) = some (9, []) := by decide
    have q10 : parseQuestionLine (trimChars ("10.").data) = some (10, []) := by decide
    have hlines : splitOnNl (joinNl [("1.").data, b1, ("2.").data, b2, ("3.").data, b3,
        ("4.").data, b4, ("5.").data, b5, ("6.").data, b6, ("7.").data, b7,
        ("8.").data, b8, ("9.").data, b9, ("10.").data, b10]) =
        [("1.").data, b1, ("2.").data, b2, ("3.").data, b3, ("4.").data, b4,
         ("5.").data, b5, ("6.").data, b6, ("7.").data, b7, ("8.").data, b8,
         ("9.").data, b9, ("10.").data, b10] := by
      simp only [joinNl]
      rw [splitOnNl_append_nl (("1.").data) _ (by decide), splitOnNl_append_nl b1 _ n1,
        splitOnNl_append_nl (("2.").data) _ (by decide), splitOnNl_append_nl b2 _ n2,
        splitOnNl_append_nl (("3.").data) _ (by decide), splitOnNl_append_nl b3 _ n3,
        splitOnNl_append_nl (("4.").data) _ (by decide), splitOnNl_append_nl b4 _ n4,
        splitOnNl_append_nl (("5.").data) _ (by decide), splitOnNl_append_nl b5 _ n5,
        splitOnNl_append_nl (("6.").data) _ (by decide), splitOnNl_append_nl b6 _ n6,
        splitOnNl_append_nl (("7.").data) _ (by decide), splitOnNl_append_nl b7 _ n7,
        splitOnNl_append_nl (("8.").data) _ (by decide), splitOnNl_append_nl b8 _ n8,
        splitOnNl_append_nl (("9.").data) _ (by decide), splitOnNl_append_nl b9 _ n9,
        splitOnNl_append_nl (("10.").data) _ (by decide), splitOnNl_no_nl b10 n10]
    rw [parseReportResponse_def, hlines]
    rw [step_section _ _ _ _ 1 q1 (by decide) d1]
    rw [step_section _ _ _ _ 2 q2 (by decide) d2]
    rw [step_section _ _ _ _ 3 q3 (by decide) d3]
    rw [step_section _ _ _ _ 4 q4 (by decide) d4]
    rw [step_section _ _ _ _ 5 q5 (by decide) d5]
    rw [step_section _ _ _ _ 6 q6 (by decide) d6]
    rw [step_section _ _ _ _ 7 q7 (by decide) d7]
    rw [step_section _ _ _ _ 8 q8 (by decide) d8]
    rw [step_section _ _ _ _ 9 q9 (by decide) d9]
    rw [step_section _ _ _ _ 10 q10 (by decide) d10]
    rw [List.foldl_nil]
    rw [commitPending_zero]
    rw [commitPending_line 1 b1 _ (by decide) e1]
    rw [commitPending_line 2 b2 _ (by decide) e2]
    rw [commitPending_line 3 b3 _ (by decide) e3]
    rw [commitPending_line 4 b4 _ (by decide) e4]
    rw [commitPending_line 5 b5 _ (by decide) e5]
    rw [commitPending_line 6 b6 _ (by decide) e6]
    rw [commitPending_line 7 b7 _ (by decide) e7]
    rw [commitPending_line 8 b8 _ (by decide) e8]
    rw [commitPending_line 9 b9 _ (by decide) e9]
    rw [commitPending_line 10 b10 _ (by decide) e10]
    rfl
  · intro content provider hall
    rw [parseReportResponse_def,
      foldl_dead (splitOnNl content) ⟨0, [], defaultReport provider⟩ hall rfl,
      commitPending_zero]

/-- c5_parser_clean_input witness: conjunct (a) applied to ten concrete
one-word bodies and conjunct (b) applied to a two-line boundary-free
input, with every hypothesis decided by computation. -/
theorem c5_parser_clean_input_witness :
    ((∀ b ∈ [("alpha").data, ("bravo").data, ("charlie").data, ("delta").data,
        ("echo").data, ("foxtrot").data, ("golf").data, ("hotel").data,
        ("india").data, ("juliet").data],
      '\n' ∉ b ∧ isBoundaryLine (trimChars b) = false ∧ trimChars b ≠ []) ∧
    parseReportResponse (joinNl [("1.").data, ("alpha").data, ("2.").data,
        ("bravo").data, ("3.").data, ("charlie").data, ("4.").data, ("delta").data,
        ("5.").data, ("echo").data, ("6.").data, ("foxtrot").data, ("7.").data,
        ("golf").data, ("8.").data, ("hotel").data, ("9.").data, ("india").data,
        ("10.").data, ("juliet").data]) "openai" =
      { defaultReport "openai" with
        intelligence := trimChars ("alpha").data,
        abstractThinking := trimChars ("bravo").data,
        originality := trimChars ("charlie").data,
        reasoningStyle := trimChars ("delta").data,
        ambiguityHandling := trimChars ("echo").data,
        metacognition := trimChars ("foxtrot").data,
        thinkingType := trimChars ("golf").data,
        cognitiveComplexity := trimChars ("hotel").data,
        thinkingQuality := trimChars ("india").data,
        cognitiveArchetype := trimChars ("juliet").data }) ∧
    ((∀ l ∈ splitOnNl ("hello world\nsecond line").data,
        isBoundaryLine (trimChars l) = false) ∧
      parseReportResponse ("hello world\nsecond line").data "openai" =
        defaultReport "openai") :=
  ⟨⟨by decide,
    c5_parser_clean_input.1 ("alpha").data ("bravo").data ("charlie").data
      ("delta").data ("echo").data ("foxtrot").data ("golf").data ("hotel").data
      ("india").data ("juliet").data "openai" (by decide)⟩,
   by decide,
   c5_parser_clean_input.2 ("hello world\nsecond line").data "openai" (by decide)⟩
